import Mathlib

/-!
# DarkRadiant: GLProgramFactory

A shallow embedding of `radiant/render/backend/GLProgramFactory.cpp`.

* `std::map<K, V>` is a list of key/value pairs kept in the order of the key
  comparison (`std::less<K>`), with `find`, `insert` (which never overwrites)
  and `assign` (the `m[k] = v` idiom).
* `std::shared_ptr<GLProgram>` is an address into a heap of program objects;
  every `std::make_shared` takes a fresh address, so two pointers denote the
  same instance exactly when they are equal. An object that no map refers to
  any more stays where it is and its address is not handed out again.
* a program object records its concrete class and the `create()` /
  `destroy()` calls it has received, in order.
-/

namespace render

/-! ## std::map -/

/-- The strict ordering of the keys of a `std::map` (`std::less<Key>`). -/
class StdLess (K : Type) where
  less : K → K → Bool

/-- Lexicographic comparison of two character sequences by character code;
a proper prefix is less. -/
def lexLess : List Nat → List Nat → Bool
  | _, [] => false
  | [], _ :: _ => true
  | a :: as, b :: bs => decide (a < b) || (decide (a = b) && lexLess as bs)

/-- Ordering of `std::string`: lexicographic on the characters. -/
instance : StdLess String where
  less a b := lexLess (a.data.map Char.toNat) (b.data.map Char.toNat)

/-- Ordering of `std::pair<K1, K2>`: first component, then second. -/
instance {K1 K2 : Type} [StdLess K1] [StdLess K2] [DecidableEq K1] : StdLess (K1 × K2) where
  less a b := StdLess.less a.1 b.1 || (decide (a.1 = b.1) && StdLess.less a.2 b.2)

/-- A `std::map<K, V>`: its entries in iteration order. -/
abbrev StdMap (K V : Type) := List (K × V)

namespace StdMap

variable {K V : Type}

/-- The keys in iteration order. -/
def keys (m : StdMap K V) : List K := m.map Prod.fst

/-- The mapped values in iteration order. -/
def values (m : StdMap K V) : List V := m.map Prod.snd

/-- Models `m.find(k)`: `none` stands for `m.end()`, otherwise the mapped value. -/
def find [DecidableEq K] (k : K) : StdMap K V → Option V
  | [] => none
  | (k', v') :: m => if k' = k then some v' else find k m

/-- Places a new entry before the first entry with a greater key. -/
def place [StdLess K] (k : K) (v : V) : StdMap K V → StdMap K V
  | [] => [(k, v)]
  | (k', v') :: m =>
    if StdLess.less k k' then (k, v) :: (k', v') :: m else (k', v') :: place k v m

/-- Models `m.insert(std::make_pair(k, v))`: the map afterwards, the value the
returned iterator points at, and the returned flag. An existing entry is
kept as it is. -/
def insert [DecidableEq K] [StdLess K] (k : K) (v : V) (m : StdMap K V) :
    StdMap K V × V × Bool :=
  match find k m with
  | some v' => (m, v', false)
  | none => (place k v m, v, true)

/-- Overwrites the value of the entry with key `k`. -/
def replace [DecidableEq K] (k : K) (v : V) : StdMap K V → StdMap K V
  | [] => []
  | (k', v') :: m => if k' = k then (k', v) :: m else (k', v') :: replace k v m

/-- Models `m[k] = v`: the entry for `k` is created when missing and then holds `v`. -/
def assign [DecidableEq K] [StdLess K] (k : K) (v : V) (m : StdMap K V) : StdMap K V :=
  match find k m with
  | some _ => replace k v m
  | none => place k v m

end StdMap

/-! ## Program objects -/

/-- The concrete classes of `GLProgram` that the factory instantiates. -/
inductive ProgramClass where
  | ARBDepthFillProgram
  | ARBBumpProgram
  | GLSLDepthFillProgram
  | GLSLBumpProgram
  | GenericVFPProgram (vertexProgramFilename fragmentProgramFilename : String)
  deriving DecidableEq, Repr

/-- The calls of the `GLProgram` interface that the factory makes. -/
inductive ProgramCall where
  | create
  | destroy
  deriving DecidableEq, Repr

/-- A `GLProgram` instance: its class and the calls made on it so far. -/
structure GLProgram where
  cls : ProgramClass
  calls : List ProgramCall
  deriving DecidableEq, Repr

/-- The object after one more call has been made on it. -/
def GLProgram.called (c : ProgramCall) (o : GLProgram) : GLProgram :=
  { o with calls := o.calls ++ [c] }

/-- A `GLProgram*` / `GLProgramPtr`: the address of an instance. -/
abbrev GLProgramPtr := Nat

/-- How a call ends when it does not return. -/
inductive Abort where
  | runtime_error (what : String)
  | length_error (what : String)
  | bad_alloc (what : String)
  | undefined (site : String)
  deriving DecidableEq, Repr

/-! ## The factory -/

/-- The state of a `GLProgramFactory` together with the program objects
allocated so far (`heap[p]` is the object at address `p`). -/
structure GLProgramFactory where
  heap : List GLProgram
  _builtInPrograms : StdMap String GLProgramPtr
  _gamePrograms : StdMap (String × String) GLProgramPtr
  deriving DecidableEq, Repr

namespace GLProgramFactory

/-- Models `std::make_shared<C>(...)`: a new object of class `C` at a fresh address. -/
def make_shared (heap : List GLProgram) (c : ProgramClass) : List GLProgram × GLProgramPtr :=
  (heap ++ [⟨c, []⟩], heap.length)

/-- The object a pointer refers to. -/
def deref (s : GLProgramFactory) (p : GLProgramPtr) : Option GLProgram := s.heap[p]?

/-- Models `GLProgramFactory::getBuiltInProgram`. The factory is not modified. -/
def getBuiltInProgram (s : GLProgramFactory) (name : String) : Except Abort GLProgramPtr :=
  match StdMap.find name s._builtInPrograms with
  | some p => .ok p
  | none => .error (.runtime_error ("GLProgramFactory: failed to find program " ++ name))

/-- Models `GLProgramFactory::getProgram`: the returned pointer and the factory
afterwards. -/
def getProgram (s : GLProgramFactory) (vertexProgramFilename fragmentProgramFilename : String) :
    GLProgramPtr × GLProgramFactory :=
  let filePair := (vertexProgramFilename, fragmentProgramFilename)
  match StdMap.find filePair s._gamePrograms with
  | some p => (p, s)
  | none =>
    let (heap, p) := make_shared s.heap
      (.GenericVFPProgram vertexProgramFilename fragmentProgramFilename)
    let result := StdMap.insert filePair p s._gamePrograms
    (result.2.1, { s with heap := heap, _gamePrograms := result.1 })

/-- Models `GLProgramFactory::setUsingGLSL`. -/
def setUsingGLSL (s : GLProgramFactory) (useGLSL : Bool) : GLProgramFactory :=
  if useGLSL then
    let (h1, p1) := make_shared s.heap .GLSLDepthFillProgram
    let m1 := StdMap.assign "depthFill" p1 s._builtInPrograms
    let (h2, p2) := make_shared h1 .GLSLBumpProgram
    let m2 := StdMap.assign "bumpMap" p2 m1
    { s with heap := h2, _builtInPrograms := m2 }
  else
    let (h1, p1) := make_shared s.heap .ARBDepthFillProgram
    let m1 := StdMap.assign "depthFill" p1 s._builtInPrograms
    let (h2, p2) := make_shared h1 .ARBBumpProgram
    let m2 := StdMap.assign "bumpMap" p2 m1
    { s with heap := h2, _builtInPrograms := m2 }

/-- The constructor: both maps start empty, then `setUsingGLSL(false)`. -/
def new : GLProgramFactory :=
  setUsingGLSL { heap := [], _builtInPrograms := [], _gamePrograms := [] } false

/-- Makes the call `c` on the object at address `p`. The maps only hold
addresses of allocated objects (`Reachable.wellFormed`); for any other
address the heap is left as it is. -/
def call (c : ProgramCall) (heap : List GLProgram) (p : GLProgramPtr) : List GLProgram :=
  match heap[p]? with
  | some o => heap.set p { o with calls := o.calls ++ [c] }
  | none => heap

/-- Models `GLProgramFactory::realise`: `create()` on each entry of the built-in
map, in iteration order. -/
def realise (s : GLProgramFactory) : GLProgramFactory :=
  { s with heap := s._builtInPrograms.foldl (fun h pair => call .create h pair.2) s.heap }

/-- Models `GLProgramFactory::unrealise`: `destroy()` on each entry of the built-in
map, in iteration order. -/
def unrealise (s : GLProgramFactory) : GLProgramFactory :=
  { s with heap := s._builtInPrograms.foldl (fun h pair => call .destroy h pair.2) s.heap }

/-- The class registered under "depthFill" for a value of the flag. -/
def depthFillClass (useGLSL : Bool) : ProgramClass :=
  if useGLSL then .GLSLDepthFillProgram else .ARBDepthFillProgram

/-- The class registered under "bumpMap" for a value of the flag. -/
def bumpMapClass (useGLSL : Bool) : ProgramClass :=
  if useGLSL then .GLSLBumpProgram else .ARBBumpProgram

/-- Consistency of the two maps with the heap: the built-in map has the keys
"bumpMap" and "depthFill", the cache has distinct keys, no pointer occurs
twice in the maps, each pointer refers to an allocated object, and the
object cached under a file pair was constructed from that pair. -/
structure WellFormed (s : GLProgramFactory) : Prop where
  builtIn_keys : StdMap.keys s._builtInPrograms = ["bumpMap", "depthFill"]
  game_keys : (StdMap.keys s._gamePrograms).Nodup
  ptrs_nodup : (StdMap.values s._builtInPrograms ++ StdMap.values s._gamePrograms).Nodup
  ptrs_valid : ∀ p : Nat,
    p ∈ StdMap.values s._builtInPrograms ++ StdMap.values s._gamePrograms → p < s.heap.length
  game_cls : ∀ k p, (k, p) ∈ s._gamePrograms →
    (s.deref p).map GLProgram.cls = some (.GenericVFPProgram k.1 k.2)

/-- The states a factory object can be in: the constructed one and those
its public member functions lead to. `getBuiltInProgram` is left out as it
does not modify the factory. -/
inductive Reachable : GLProgramFactory → Prop where
  | new : Reachable GLProgramFactory.new
  | setUsingGLSL {s : GLProgramFactory} (useGLSL : Bool) :
      Reachable s → Reachable (s.setUsingGLSL useGLSL)
  | getProgram {s : GLProgramFactory} (v f : String) :
      Reachable s → Reachable (s.getProgram v f).2
  | realise {s : GLProgramFactory} : Reachable s → Reachable s.realise
  | unrealise {s : GLProgramFactory} : Reachable s → Reachable s.unrealise

/-- What the built-in map shows: each key with the object its pointer
refers to (class and calls received). -/
def builtInView (s : GLProgramFactory) : List (String × Option GLProgram) :=
  s._builtInPrograms.map (fun pair => (pair.1, s.deref pair.2))

/-- What the game-program cache shows: each key with its pointer and the
object the pointer refers to. -/
def gameView (s : GLProgramFactory) : List ((String × String) × GLProgramPtr × Option GLProgram) :=
  s._gamePrograms.map (fun pair => (pair.1, pair.2, s.deref pair.2))

/-- A sequence of `getProgram` calls, the requested pairs in order. -/
def getPrograms (s : GLProgramFactory) : List (String × String) → GLProgramFactory
  | [] => s
  | (v, f) :: rest => getPrograms (s.getProgram v f).2 rest

/-- The swapped-pair property: `getProgram(v, f)` followed by
`getProgram(f, v)` returns two different instances, and afterwards the cache
holds them under the two different keys `(v, f)` and `(f, v)`. -/
def SwapDistinct (s : GLProgramFactory) (v f : String) : Prop :=
  let r1 := s.getProgram v f
  let r2 := r1.2.getProgram f v
  r1.1 ≠ r2.1 ∧ (v, f) ≠ (f, v) ∧
    StdMap.find (v, f) r2.2._gamePrograms = some r1.1 ∧
    StdMap.find (f, v) r2.2._gamePrograms = some r2.1

/-! ## Reading program files -/

/-- The range of `std::size_t`. -/
def SIZE_RANGE : Nat := 2 ^ 64

/-- The largest size of a `std::vector<char>` (`max_size()`): the constructor
throws `std::length_error` when more elements are asked for. -/
def MAX_SIZE : Nat := 2 ^ 63 - 1

/-- The largest value of `std::streamsize`, the type of the count that
`std::istream::read` takes. -/
def STREAMSIZE_MAX : Nat := 2 ^ 63 - 1

/-- What the factory takes from its surroundings when it reads a file:
the runtime data path of the application context, `os::getFileSize`, the
characters a `std::ifstream` on a path delivers (`none`: the stream is not
open), and the number of characters that `operator new` can deliver for one
vector (`std::bad_alloc` beyond it). The content of a file that can be opened
fits, with one more character, into a vector and into that memory. -/
structure FileEnv where
  runtimeDataPath : String
  getFileSize : String → Nat
  fileData : String → Option (List Nat)
  heapSize : Nat
  fits : ∀ path data, fileData path = some data →
    data.length < MAX_SIZE ∧ data.length < heapSize

/-- The surroundings in which every path opens on the characters `data`,
`os::getFileSize` reports `reportedSize`, and the memory holds `heapSize`
characters. -/
def FileEnv.withFile (runtimeDataPath : String) (reportedSize : Nat) (data : List Nat)
    (heapSize : Nat) (h : data.length < MAX_SIZE ∧ data.length < heapSize) : FileEnv where
  runtimeDataPath := runtimeDataPath
  getFileSize := fun _ => reportedSize
  fileData := fun _ => some data
  heapSize := heapSize
  fits := fun _ _ e => by cases e; exact h

/-- The surroundings in which no path opens. -/
def FileEnv.withoutFiles (runtimeDataPath : String) (reportedSize : Nat) (heapSize : Nat) :
    FileEnv where
  runtimeDataPath := runtimeDataPath
  getFileSize := fun _ => reportedSize
  fileData := fun _ => none
  heapSize := heapSize
  fits := fun _ _ e => by cases e

/-- Models `GLProgramFactory::getBuiltInGLProgramPath`. -/
def getBuiltInGLProgramPath (env : FileEnv) (progName : String) : String :=
  env.runtimeDataPath ++ "gl/" ++ progName

/-- The local `bufSize` of `getFileAsBuffer`: `nullTerminated ? size + 1 : size`
in `std::size_t`. -/
def bufSize (size : Nat) (nullTerminated : Bool) : Nat :=
  if nullTerminated then (size + 1) % SIZE_RANGE else size

/-- The characters that `file.read(s, size)` extracts from the stream: the
count is converted to `std::streamsize`, a count that is negative there
extracts nothing, and the stream ends after its last character. -/
def extracted (data : List Nat) (size : Nat) : List Nat :=
  if STREAMSIZE_MAX < size then [] else data.take size

/-- The buffer after `file.read(..., size)` has stored the extracted characters
from its start, for a buffer that has room for them: the rest is left as it
is. -/
def read (data buffer : List Nat) (size : Nat) : List Nat :=
  extracted data size ++ buffer.drop (extracted data size).length

/-- Models `&buffer->front()`: the buffer seen from its first element.
There is no first element in an empty vector. -/
def front (buffer : List Nat) : Except Abort (List Nat) :=
  match buffer with
  | [] => .error (.undefined "std::vector<char>::front() on an empty vector")
  | _ :: _ => .ok buffer

/-- Models `file.read(pointer, size)` with `pointer` taken from `front()` of
`buffer`. When nothing is extracted, nothing is stored and the pointer is not
used; otherwise the characters go through the pointer, which must point into
the vector, and the vector must have room for them. -/
def readThrough (data buffer : List Nat) (pointer : Except Abort (List Nat)) (size : Nat) :
    Except Abort (List Nat) :=
  match extracted data size with
  | [] => .ok buffer
  | c :: rest =>
    match pointer with
    | .error e => .error e
    | .ok _ =>
      if buffer.length < (c :: rest).length then
        .error (.undefined "std::istream::read past the end of the vector")
      else
        .ok (read data buffer size)

/-- Models `new std::vector<char>(n, 0)`. -/
def newVector (env : FileEnv) (n : Nat) : Except Abort (List Nat) :=
  if MAX_SIZE < n then
    .error (.length_error "cannot create std::vector larger than max_size()")
  else if env.heapSize < n then
    .error (.bad_alloc "std::bad_alloc")
  else
    .ok (List.replicate n 0)

/-- The point that `getFileAsBuffer` has reached when the vector is
allocated: the characters of the open stream, the file size and the
vector. -/
structure OpenedFile where
  data : List Nat
  size : Nat
  buffer : List Nat
  deriving DecidableEq, Repr

/-- The first part of `GLProgramFactory::getFileAsBuffer`, up to the allocation
of the vector: the path, the file size, the check that the stream is open,
and `new std::vector<char>(bufSize, 0)`. -/
def openAndAllocate (env : FileEnv) (filename : String) (nullTerminated : Bool) :
    Except Abort OpenedFile :=
  let absFileName := getBuiltInGLProgramPath env filename
  let size := env.getFileSize absFileName % SIZE_RANGE
  match env.fileData absFileName with
  | none =>
    .error (.runtime_error
      ("GLProgramFactory::createARBProgram() failed to open file: " ++ absFileName))
  | some data =>
    match newVector env (bufSize size nullTerminated) with
    | .error e => .error e
    | .ok buffer => .ok ⟨data, size, buffer⟩

/-- Models `GLProgramFactory::getFileAsBuffer`: after the allocation,
`file.read(&buffer->front(), size)` and the return of the buffer. -/
def getFileAsBuffer (env : FileEnv) (filename : String) (nullTerminated : Bool) :
    Except Abort (List Nat) :=
  match openAndAllocate env filename nullTerminated with
  | .error e => .error e
  | .ok file => readThrough file.data file.buffer (front file.buffer) file.size

/-! ## Compiling and linking -/

/-- Value of `GL_TRUE`. -/
def GL_TRUE : Int := 1

/-- Value of `GL_INVALID_OPERATION`. -/
def GL_INVALID_OPERATION : Nat := 0x0502

/-- Value of `GL_VERTEX_SHADER`. -/
def GL_VERTEX_SHADER : Nat := 0x8B31

/-- Value of `GL_FRAGMENT_SHADER`. -/
def GL_FRAGMENT_SHADER : Nat := 0x8B30

/-- The places where the factory calls `debug::assertNoGlErrors()`. -/
inductive CheckPoint where
  | shaderSource
  | compiled
  | attached
  | beforeProgramString
  deriving DecidableEq, Repr

/-- What the driver reports once `glProgramStringARB` has been called:
`glGetError()`, `GL_PROGRAM_ERROR_POSITION_ARB` and
`GL_PROGRAM_ERROR_STRING_ARB`. -/
structure ProgramStringReply where
  glGetError : Nat
  errPos : Int
  errString : String

/-- The OpenGL driver and the debugging helper as the factory sees them.
A shader is told by its handle and the source text given to it, a program by
its handle and the shaders attached to it. `glGetShaderInfoLog` and
`glGetProgramInfoLog` stand for the text the driver leaves, as a C string, in
a zeroed buffer of the given size. -/
structure GLDriver where
  glCreateProgram : Nat
  glCreateShader : Nat → Nat
  compileStatus : Nat → List Nat → Int
  shaderInfoLogLength : Nat → List Nat → Nat
  glGetShaderInfoLog : Nat → List Nat → Nat → String
  linkStatus : Nat → List (Nat × List Nat) → Int
  programInfoLogLength : Nat → List (Nat × List Nat) → Nat
  glGetProgramInfoLog : Nat → List (Nat × List Nat) → Nat → String
  assertNoGlErrors : CheckPoint → Except Abort Unit
  glGenProgramsARB : Nat
  glProgramStringARB : Nat → Int → List Nat → ProgramStringReply

/-- The characters of a buffer up to the first NUL: what is read through a
`const char*` to its start. -/
def cString (buffer : List Nat) : List Nat :=
  buffer.takeWhile (fun c => c != 0)

/-- Models `GLProgramFactory::assertShaderCompiled`, for the shader `shader`
holding the text `source`. -/
def assertShaderCompiled (gl : GLDriver) (shader : Nat) (source : List Nat) :
    Except Abort Unit :=
  let compileStatus := gl.compileStatus shader source
  if compileStatus ≠ GL_TRUE then
    let logLength := gl.shaderInfoLogLength shader source
    let logBuf := List.replicate (logLength + 1) (0 : Nat)
    let logStr := gl.glGetShaderInfoLog shader source logBuf.length
    .error (.runtime_error ("Failed to compile GLSL shader:\n" ++ logStr))
  else
    .ok ()

/-- Models `GLProgramFactory::getProgramInfoLog`. -/
def getProgramInfoLog (gl : GLDriver) (program : Nat) (attached : List (Nat × List Nat)) :
    String :=
  let logLength := gl.programInfoLogLength program attached
  let logBuf := List.replicate (logLength + 1) (0 : Nat)
  gl.glGetProgramInfoLog program attached logBuf.length

/-- Models `GLProgramFactory::assertProgramLinked`. The part compiled under
`_DEBUG` only writes to the console and is left out. -/
def assertProgramLinked (gl : GLDriver) (program : Nat) (attached : List (Nat × List Nat)) :
    Except Abort Unit :=
  let linkStatus := gl.linkStatus program attached
  if linkStatus ≠ GL_TRUE then
    .error (.runtime_error
      ("Failed to construct GLSL program:\n" ++ getProgramInfoLog gl program attached))
  else
    .ok ()

/-- Models `GLProgramFactory::createGLSLProgram`. -/
def createGLSLProgram (env : FileEnv) (gl : GLDriver) (vFile fFile : String) :
    Except Abort Nat := do
  let program := gl.glCreateProgram
  let vertexShader := gl.glCreateShader GL_VERTEX_SHADER
  let fragmentShader := gl.glCreateShader GL_FRAGMENT_SHADER
  let vertexSrc ← getFileAsBuffer env vFile true
  let fragSrc ← getFileAsBuffer env fFile true
  let csVertex ← front vertexSrc
  let csFragment ← front fragSrc
  gl.assertNoGlErrors .shaderSource
  assertShaderCompiled gl vertexShader (cString csVertex)
  assertShaderCompiled gl fragmentShader (cString csFragment)
  gl.assertNoGlErrors .compiled
  let attached := [(vertexShader, cString csVertex), (fragmentShader, cString csFragment)]
  gl.assertNoGlErrors .attached
  assertProgramLinked gl program attached
  return program

/-- Models `GLsizei(n)`: conversion of a size to a 32-bit signed integer. -/
def GLsizei (n : Nat) : Int := Int.bmod (n : Int) (2 ^ 32)

/-- The characters that a callee reads through a pointer taken from
`front()` when it is told to read `len` of them: with `len` 0 or negative it
reads none and does not use the pointer. -/
def readCount (pointer : Except Abort (List Nat)) (len : Int) : Except Abort (List Nat) :=
  if len ≤ 0 then .ok []
  else
    match pointer with
    | .error e => .error e
    | .ok buffer => .ok (buffer.take len.toNat)

/-- Models `GLProgramFactory::createARBProgram`: the returned program id and the
lines written to `rConsoleError()`. The driver is given the size of the
buffer and the pointer from `front()`. -/
def createARBProgram (env : FileEnv) (gl : GLDriver) (filename : String) (type : Nat) :
    Except Abort (Nat × List String) := do
  let buffer ← getFileAsBuffer env filename false
  gl.assertNoGlErrors .beforeProgramString
  let programID := gl.glGenProgramsARB
  let string ← readCount (front buffer) (GLsizei buffer.length)
  let reply := gl.glProgramStringARB type (GLsizei buffer.length) string
  if GL_INVALID_OPERATION = reply.glGetError then
    let error := "GL program error: " ++ (filename ++ "(" ++ toString reply.errPos ++ "): \n\n")
      ++ reply.errString
    return (programID, [error])
  else
    return (programID, [])

/-! ## Sequences of calls -/

/-- The public member functions that act on the two maps. -/
inductive Call where
  | setUsingGLSL (useGLSL : Bool)
  | getBuiltInProgram (name : String)
  | getProgram (vertexProgramFilename fragmentProgramFilename : String)
  | realise
  | unrealise
  deriving DecidableEq, Repr

/-- The factory after a call; what the call returns or throws is dropped. -/
def perform (s : GLProgramFactory) : Call → GLProgramFactory
  | .setUsingGLSL useGLSL => s.setUsingGLSL useGLSL
  | .getBuiltInProgram name =>
    match s.getBuiltInProgram name with
    | .ok _ => s
    | .error _ => s
  | .getProgram v f => (s.getProgram v f).2
  | .realise => s.realise
  | .unrealise => s.unrealise

/-- The factory after a sequence of calls on the constructed factory. -/
def performAll (calls : List Call) : GLProgramFactory :=
  calls.foldl perform GLProgramFactory.new

/-- The flag of the last `setUsingGLSL` call of a sequence, starting from
`current`. -/
def lastFlag (current : Bool) (calls : List Call) : Bool :=
  calls.foldl (fun b c => match c with
    | .setUsingGLSL useGLSL => useGLSL
    | _ => b) current

/-- The built-in map consists of the entries "bumpMap" and "depthFill", and
both refer to objects of the classes that `setUsingGLSL(useGLSL)` registers. -/
def BuiltInVariant (s : GLProgramFactory) (useGLSL : Bool) : Prop :=
  ∃ pb pd, s._builtInPrograms = [("bumpMap", pb), ("depthFill", pd)] ∧
    (s.deref pb).map GLProgram.cls = some (bumpMapClass useGLSL) ∧
    (s.deref pd).map GLProgram.cls = some (depthFillClass useGLSL)

end GLProgramFactory

end render

/-! ## The shader library and the texture manager

`ShaderLibrary.h`, `textures/GLTextureManager.h` and their implementations
are not part of the sources at hand; `Doom3ShaderSystem.h` only declares the
facade. The definitions of this section follow the specification. -/

namespace shaders

open render

/-- Modelled from the spec: `ShaderDefinition`, declared in the missing
`ShaderLibrary.h`: the name (its unique key), the parsed material stages, the
diffuse, bump and specular texture references and the flags. -/
structure ShaderDefinition where
  name : String
  stages : List String
  diffuse : String
  bump : String
  specular : String
  lightingEnabled : Bool
  translucent : Bool
  deriving DecidableEq, Repr

/-- Modelled from the spec: what the scan of the material files meets, the
parsing grammar being external: a definition block, or a malformed block that
is skipped with a diagnostic. -/
inductive Block where
  | definition (d : ShaderDefinition)
  | malformed (diagnostic : String)
  deriving DecidableEq, Repr

/-- Modelled from the spec: the entries that loading writes to the log: the
warning for an overwriting redefinition and the diagnostic for a skipped
malformed block. -/
inductive LogEntry where
  | overwritten (name : String)
  | skipped (diagnostic : String)
  deriving DecidableEq, Repr

/-- Modelled from the spec: `ShaderLibrary` (missing `ShaderLibrary.h`): the
parsed material definitions keyed by name, together with the log. -/
structure ShaderLibrary where
  definitions : StdMap String ShaderDefinition
  log : List LogEntry
  deriving DecidableEq, Repr

/-- Modelled from the spec: `Shader`, the runtime instance (missing
`ShaderLibrary.h`): a definition, the resolved GPU texture handles while
realised, and the mark of the "not found" stub. -/
structure Shader where
  definition : ShaderDefinition
  textures : Option (List Nat)
  notFound : Bool
  deriving DecidableEq, Repr

/-- Modelled from the spec: the stub "not found" shader that `findShader`
returns for an unknown name. -/
def Shader.stub : Shader :=
  { definition := ⟨"", [], "", "", "", false, false⟩, textures := none, notFound := true }

namespace ShaderLibrary

/-- Modelled from the spec: the library before any material file is loaded. -/
def empty : ShaderLibrary := { definitions := [], log := [] }

/-- Modelled from the spec: the step of `loadMaterialFiles` for one block: a
definition becomes the entry under its name, an overwriting redefinition
logs a warning and the last one wins; a malformed block is skipped with a
diagnostic. -/
def addBlock (lib : ShaderLibrary) : Block → ShaderLibrary
  | .definition d =>
    { definitions := StdMap.assign d.name d lib.definitions
      log := match StdMap.find d.name lib.definitions with
        | some _ => lib.log ++ [.overwritten d.name]
        | none => lib.log }
  | .malformed diagnostic => { lib with log := lib.log ++ [.skipped diagnostic] }

/-- Modelled from the spec: `loadMaterialFiles()` (missing implementation):
the blocks of the scanned material files are taken in the order in which
they are met. -/
def loadMaterialFiles (lib : ShaderLibrary) (blocks : List Block) : ShaderLibrary :=
  blocks.foldl addBlock lib

/-- Modelled from the spec: `findShader(name)` (missing `ShaderLibrary`
implementation): the existing entry, or the stub "not found" shader; it never
fails. -/
def findShader (lib : ShaderLibrary) (name : String) : Shader :=
  match StdMap.find name lib.definitions with
  | some d => { definition := d, textures := none, notFound := false }
  | none => Shader.stub

end ShaderLibrary

/-- Modelled from the spec: the definitions with a given name among the
blocks that the scan met, in that order. -/
def definitionsNamed (name : String) (blocks : List Block) : List ShaderDefinition :=
  blocks.filterMap fun b =>
    match b with
    | .definition d => if d.name = name then some d else none
    | .malformed _ => none

/-- Modelled from the spec: `Texture` (missing `GLTextureManager.h`): a GPU
handle, the source path, and whether it is the placeholder "missing texture"
image. -/
structure Texture where
  handle : Nat
  path : String
  image : List Nat
  placeholder : Bool
  deriving DecidableEq, Repr

/-- Modelled from the spec: `GLTextureManager` (missing
`textures/GLTextureManager.h`): the texture objects made so far (a pointer is
an index), the cache keyed by file path, and the paths loaded from disk in
order. -/
structure GLTextureManager where
  textures : List Texture
  cache : StdMap String Nat
  loads : List String
  deriving DecidableEq, Repr

/-- Modelled from the spec: the placeholder "missing texture" image. -/
def missingTextureImage : List Nat := []

/-- Modelled from the spec: `getBinding(path, ...)` (missing
`GLTextureManager` implementation): the cached texture if present; otherwise
the image is loaded from disk (a missing or corrupt file yields the
placeholder), uploaded to the GPU under a new handle, inserted into the
cache and returned. `disk` gives the image stored under a path. -/
def GLTextureManager.getBinding (disk : String → Option (List Nat)) (m : GLTextureManager)
    (path : String) : Nat × GLTextureManager :=
  match StdMap.find path m.cache with
  | some t => (t, m)
  | none =>
    let texture : Texture :=
      match disk path with
      | some image => ⟨m.textures.length, path, image, false⟩
      | none => ⟨m.textures.length, path, missingTextureImage, true⟩
    let result := StdMap.insert path m.textures.length m.cache
    (result.2.1, { textures := m.textures ++ [texture], cache := result.1,
                   loads := m.loads ++ [path] })

end shaders

/-! ## The model exporter

An embedding of `plugins/model/ModelExporterBase.h`. The vertex type
`ArbitraryMeshVertex` and `Matrix4` are declared elsewhere: `V` stands for the
vertex type, and a matrix is given by what it does to a vertex
(`transformPoint` applied to its `vertex` member). `IndexBuffer` is taken to
hold `unsigned int`, the type of `indexStart`. -/

namespace model

open render

/-- The range of `unsigned int`. -/
def UINT_RANGE : Nat := 2 ^ 32

/-- Models `ModelPolygon`: a triangle with the corners `a`, `b`, `c`. -/
structure ModelPolygon (V : Type) where
  a : V
  b : V
  c : V
  deriving DecidableEq, Repr

/-- Models `ModelExporterBase::Surface`. -/
structure Surface (V : Type) where
  materialName : String
  vertices : List V
  indices : List Nat
  deriving DecidableEq, Repr

/-- An `IModelSurface` as `addSurface` uses it: either the `dynamic_cast` to
`IIndexedModelSurface` succeeds, and the surface gives its default material,
vertex array and index array, or it does not, and the surface gives its
default material, `getNumTriangles()` and `getPolygon(i)`. -/
inductive IModelSurface (V : Type) where
  | indexed (defaultMaterial : String) (vertexArray : List V) (indexArray : List Nat)
  | plain (defaultMaterial : String) (numTriangles : Int) (getPolygon : Nat → ModelPolygon V)

/-- Models `IModelSurface::getDefaultMaterial`. -/
def IModelSurface.getDefaultMaterial {V : Type} : IModelSurface V → String
  | .indexed defaultMaterial _ _ => defaultMaterial
  | .plain defaultMaterial _ _ => defaultMaterial

/-- The state of a `ModelExporterBase`. -/
structure ModelExporterBase (V : Type) where
  _surfaces : StdMap String (Surface V)
  deriving DecidableEq, Repr

namespace ModelExporterBase

variable {V : Type}

/-- Models `ModelExporterBase::ensureSurface`: the map afterwards and the
surface that the returned reference denotes, the entry under
`materialName`. -/
def ensureSurface (surfaces : StdMap String (Surface V)) (materialName : String) :
    StdMap String (Surface V) × Surface V :=
  match StdMap.find materialName surfaces with
  | some surf => (surfaces, surf)
  | none =>
    let result := StdMap.insert materialName (⟨"", [], []⟩ : Surface V) surfaces
    let surf := { result.2.1 with materialName := materialName }
    (StdMap.replace materialName surf result.1, surf)

/-- The loop of the indexed branch of `addSurface`, from the counter `i` on:
three indices are read per round and pushed in reversed order, each with
`indexStart` added in `unsigned int` arithmetic. It is entered with at least
three indices, so that `indices.size() - 2` does not wrap. A read past the
end of the index array has no defined behaviour. -/
def reverseWindings (indices : List Nat) (indexStart : Nat) (i : Nat)
    (surfaceIndices : List Nat) : Except Abort (List Nat) :=
  if i < indices.length - 2 then
    match indices[i + 2]?, indices[i + 1]?, indices[i + 0]? with
    | some i2, some i1, some i0 =>
      reverseWindings indices indexStart (i + 3)
        (surfaceIndices ++ [(i2 + indexStart) % UINT_RANGE, (i1 + indexStart) % UINT_RANGE,
          (i0 + indexStart) % UINT_RANGE])
    | _, _, _ => .error (.undefined "std::vector::operator[] past the end")
  else
    .ok surfaceIndices
termination_by indices.length - i
decreasing_by omega

/-- The body of the polygon loops of `addSurface` and `addPolygons`: the
three corners are pushed as vertices and their positions as indices. -/
def pushTriangle (surface : Surface V) (a b c : V) : Surface V :=
  let indexStart := surface.vertices.length % UINT_RANGE
  { surface with
    vertices := surface.vertices ++ [a, b, c]
    indices := surface.indices ++
      [indexStart, (indexStart + 1) % UINT_RANGE, (indexStart + 2) % UINT_RANGE] }

/-- Models `ModelExporterBase::addSurface`: the exporter afterwards and the
lines written to `rError()`. -/
def addSurface (s : ModelExporterBase V) (incoming : IModelSurface V) (localToWorld : V → V) :
    Except Abort (ModelExporterBase V × List String) :=
  let ensured := ensureSurface s._surfaces incoming.getDefaultMaterial
  let surfaces := ensured.1
  let surface := ensured.2
  match incoming with
  | .indexed defaultMaterial vertices indices =>
    let indexStart := surface.vertices.length % UINT_RANGE
    if indices.length < 3 then
      .ok (⟨surfaces⟩, ["Rejecting model surface with less than 3 indices."])
    else
      match reverseWindings indices indexStart 0 surface.indices with
      | .error e => .error e
      | .ok surfaceIndices =>
        .ok (⟨StdMap.replace defaultMaterial
          { surface with vertices := surface.vertices ++ vertices, indices := surfaceIndices }
          surfaces⟩, [])
  | .plain defaultMaterial numTriangles getPolygon =>
    let filled := (List.range numTriangles.toNat).foldl
      (fun surf i => pushTriangle surf (localToWorld (getPolygon i).a)
        (localToWorld (getPolygon i).b) (localToWorld (getPolygon i).c)) surface
    .ok (⟨StdMap.replace defaultMaterial filled surfaces⟩, [])

/-- Models `ModelExporterBase::addPolygons`. -/
def addPolygons (s : ModelExporterBase V) (materialName : String)
    (polys : List (ModelPolygon V)) (localToWorld : V → V) : ModelExporterBase V :=
  let ensured := ensureSurface s._surfaces materialName
  let filled := polys.foldl
    (fun surf poly => pushTriangle surf (localToWorld poly.a) (localToWorld poly.b)
      (localToWorld poly.c)) ensured.2
  ⟨StdMap.replace materialName filled ensured.1⟩

/-- The surface stored under a material name, the empty surface of that name
when there is none: what `ensureSurface` hands out. -/
def surfaceOrEmpty (s : ModelExporterBase V) (materialName : String) : Surface V :=
  (StdMap.find materialName s._surfaces).getD ⟨materialName, [], []⟩

/-- The sum of an incoming index and the vertex count of the surface as
`addSurface` computes it: the count is cast to `unsigned int` and added in
`unsigned int` arithmetic. -/
def offsetIndex (index vertexCount : Nat) : Nat :=
  (index + vertexCount % UINT_RANGE) % UINT_RANGE

/-- The indexed-surface property of `addSurface` for a given way `add` of
adding the former vertex count to an incoming index: the call returns, the
surface of the default material holds its former vertices followed by the
incoming ones, and its former indices followed by `3 * (n / 3)` new ones, the
`k`-th triple being the incoming triple in reversed order with the former
vertex count added. -/
def AppendsReversedBy (add : Nat → Nat → Nat) (s : ModelExporterBase V)
    (defaultMaterial : String) (vertices : List V) (indices : List Nat)
    (localToWorld : V → V) : Prop :=
  ∃ after appended,
    addSurface s (.indexed defaultMaterial vertices indices) localToWorld = .ok (after, []) ∧
    StdMap.find defaultMaterial after._surfaces = some
      { materialName := (surfaceOrEmpty s defaultMaterial).materialName
        vertices := (surfaceOrEmpty s defaultMaterial).vertices ++ vertices
        indices := (surfaceOrEmpty s defaultMaterial).indices ++ appended } ∧
    appended.length = 3 * (indices.length / 3) ∧
    ∀ k, k < indices.length / 3 → ∃ i0 i1 i2,
      indices[3 * k]? = some i0 ∧ indices[3 * k + 1]? = some i1 ∧
      indices[3 * k + 2]? = some i2 ∧
      appended[3 * k]? = some (add i2 (surfaceOrEmpty s defaultMaterial).vertices.length) ∧
      appended[3 * k + 1]? = some (add i1 (surfaceOrEmpty s defaultMaterial).vertices.length) ∧
      appended[3 * k + 2]? = some (add i0 (surfaceOrEmpty s defaultMaterial).vertices.length)

/-- The calls that fill an exporter. -/
inductive Call (V : Type) where
  | addPolygons (materialName : String) (polys : List (ModelPolygon V)) (localToWorld : V → V)
  | addSurface (incoming : IModelSurface V) (localToWorld : V → V)

/-- An indexed surface of the call has all its indices below its own vertex
count. -/
def Call.indicesInRange : Call V → Prop
  | .addSurface (.indexed _ vertices indices) _ => ∀ i ∈ indices, i < vertices.length
  | _ => True

/-- The exporter after a call. -/
def perform (s : ModelExporterBase V) : Call V → Except Abort (ModelExporterBase V)
  | .addPolygons materialName polys localToWorld =>
    .ok (s.addPolygons materialName polys localToWorld)
  | .addSurface incoming localToWorld =>
    match s.addSurface incoming localToWorld with
    | .ok result => .ok result.1
    | .error e => .error e

/-- The exporter after a sequence of calls, starting from `s`. -/
def performAll (s : ModelExporterBase V) : List (Call V) → Except Abort (ModelExporterBase V)
  | [] => .ok s
  | c :: calls =>
    match perform s c with
    | .ok next => performAll next calls
    | .error e => .error e

/-- What holds of a stored surface: its name is its key, its indices come in
triples, and each index is below the vertex count. -/
def SurfaceOk (key : String) (surface : Surface V) : Prop :=
  surface.materialName = key ∧ 3 ∣ surface.indices.length ∧
    ∀ i ∈ surface.indices, i < surface.vertices.length

end ModelExporterBase

end model

/-! ## The target manager

An embedding of `plugins/entity/target/TargetManager.cpp`. A `TargetPtr` is the
address of a `Target` object; `Target` itself is declared elsewhere and is
represented by the calls it has received. -/

namespace entity

open render

/-- The calls that the manager makes on a `Target`. -/
inductive TargetCall where
  | clear
  | setInstance (sceneInstance : Nat)
  deriving DecidableEq, Repr

/-- A `Target` object: the calls made on it since `new Target`. -/
structure Target where
  calls : List TargetCall
  deriving DecidableEq, Repr

/-- The state of the `TargetManager` together with the `Target` objects
allocated so far (`heap[p]` is the object at address `p`). -/
structure TargetManager where
  heap : List Target
  _emptyTarget : Nat
  _targets : StdMap String Nat
  deriving DecidableEq, Repr

namespace TargetManager

/-- The constructor: the empty target is allocated and cleared. -/
def new : TargetManager :=
  { heap := [⟨[.clear]⟩], _emptyTarget := 0, _targets := [] }

/-- The object a pointer refers to. -/
def deref (s : TargetManager) (p : Nat) : Option Target := s.heap[p]?

/-- Models `TargetManager::getTarget`: the returned pointer and the manager
afterwards. -/
def getTarget (s : TargetManager) (name : String) : Nat × TargetManager :=
  if name = "" then
    (s._emptyTarget, s)
  else
    match StdMap.find name s._targets with
    | some found => (found, s)
    | none =>
      let target := s.heap.length
      let heap := s.heap ++ [⟨[.clear]⟩]
      let result := StdMap.insert name target s._targets
      (target, { s with heap := heap, _targets := result.1 })

end TargetManager

end entity

namespace render


/-! ## Facts about std::map -/

namespace StdMap

variable {K V : Type}

theorem find_eq_none_iff [DecidableEq K] (k : K) (m : StdMap K V) :
    find k m = none ↔ k ∉ keys m := by
  induction m with
  | nil => simp [find, keys]
  | cons e m ih =>
    obtain ⟨k', v'⟩ := e
    by_cases h : k' = k
    · simp [find, keys, h]
    · have h' : ¬ k = k' := fun e => h e.symm
      simpa [find, keys, h, h'] using ih

theorem mem_of_find_eq_some [DecidableEq K] {k : K} {v : V} {m : StdMap K V}
    (h : find k m = some v) : (k, v) ∈ m := by
  induction m with
  | nil => simp [find] at h
  | cons e m ih =>
    obtain ⟨k', v'⟩ := e
    by_cases hk : k' = k
    · simp [find, hk] at h
      simp [hk, h]
    · simp [find, hk] at h
      exact List.mem_cons_of_mem _ (ih h)

theorem find_eq_some_of_mem [DecidableEq K] {k : K} {v : V} {m : StdMap K V}
    (hn : (keys m).Nodup) (h : (k, v) ∈ m) : find k m = some v := by
  induction m with
  | nil => simp at h
  | cons e m ih =>
    obtain ⟨k', v'⟩ := e
    simp only [keys, List.map_cons, List.nodup_cons] at hn
    rcases List.mem_cons.1 h with h | h
    · cases h
      simp [find]
    · have hk : k' ≠ k := by
        rintro rfl
        exact hn.1 (List.mem_map.2 ⟨(k', v), h, rfl⟩)
      simpa [find, hk] using ih hn.2 h

theorem mem_values_of_find [DecidableEq K] {k : K} {v : V} {m : StdMap K V}
    (h : find k m = some v) : v ∈ values m :=
  List.mem_map.2 ⟨(k, v), mem_of_find_eq_some h, rfl⟩

theorem place_perm [StdLess K] (k : K) (v : V) (m : StdMap K V) :
    List.Perm (place k v m) ((k, v) :: m) := by
  induction m with
  | nil => simp [place]
  | cons e m ih =>
    obtain ⟨k', v'⟩ := e
    unfold place
    split
    · exact List.Perm.refl _
    · exact (List.Perm.cons _ ih).trans (List.Perm.swap _ _ _)

theorem keys_place_perm [StdLess K] (k : K) (v : V) (m : StdMap K V) :
    List.Perm (keys (place k v m)) (k :: keys m) :=
  (place_perm k v m).map Prod.fst

theorem values_place_perm [StdLess K] (k : K) (v : V) (m : StdMap K V) :
    List.Perm (values (place k v m)) (v :: values m) :=
  (place_perm k v m).map Prod.snd

theorem length_place [StdLess K] (k : K) (v : V) (m : StdMap K V) :
    (place k v m).length = m.length + 1 := by
  simpa using (place_perm k v m).length_eq

theorem find_place_self [DecidableEq K] [StdLess K] (k : K) (v : V) (m : StdMap K V)
    (h : find k m = none) : find k (place k v m) = some v := by
  induction m with
  | nil => simp [place, find]
  | cons e m ih =>
    obtain ⟨k', v'⟩ := e
    by_cases hk : k' = k
    · simp [find, hk] at h
    · simp only [find, hk, if_false] at h
      unfold place
      split
      · simp [find]
      · simp [find, hk, ih h]

theorem find_place_ne [DecidableEq K] [StdLess K] (k : K) (v : V) (m : StdMap K V)
    {k' : K} (hne : k' ≠ k) : find k' (place k v m) = find k' m := by
  induction m with
  | nil => simp [place, find, hne.symm]
  | cons e m ih =>
    obtain ⟨k2, v2⟩ := e
    unfold place
    split
    · simp [find, hne.symm]
    · simp [find, ih]

theorem keys_replace [DecidableEq K] (k : K) (v : V) (m : StdMap K V) :
    keys (replace k v m) = keys m := by
  induction m with
  | nil => rfl
  | cons e m ih =>
    obtain ⟨k', v'⟩ := e
    unfold replace
    split
    · simp [keys]
    · simpa [keys] using ih

end StdMap

/-! ## Built-in programs -/

namespace GLProgramFactory

theorem setUsingGLSL_heap (s : GLProgramFactory) (b : Bool) :
    (s.setUsingGLSL b).heap = s.heap ++ [⟨depthFillClass b, []⟩, ⟨bumpMapClass b, []⟩] := by
  cases b <;> simp [setUsingGLSL, make_shared, depthFillClass, bumpMapClass]

theorem setUsingGLSL_gamePrograms (s : GLProgramFactory) (b : Bool) :
    (s.setUsingGLSL b)._gamePrograms = s._gamePrograms := by
  cases b <;> rfl

theorem setUsingGLSL_builtInPrograms (s : GLProgramFactory) (b : Bool) :
    (s.setUsingGLSL b)._builtInPrograms =
      StdMap.assign "bumpMap" (s.heap.length + 1)
        (StdMap.assign "depthFill" s.heap.length s._builtInPrograms) := by
  cases b <;> simp [setUsingGLSL, make_shared]

theorem eq_of_keys {m : StdMap String GLProgramPtr}
    (h : StdMap.keys m = ["bumpMap", "depthFill"]) :
    ∃ pb pd, m = [("bumpMap", pb), ("depthFill", pd)] := by
  match m, h with
  | [(k1, pb), (k2, pd)], h =>
    simp only [StdMap.keys, List.map_cons, List.map_nil, List.cons.injEq, and_true] at h
    obtain ⟨rfl, rfl⟩ := h
    exact ⟨pb, pd, rfl⟩

theorem assign_builtIn (pb pd p1 p2 : GLProgramPtr) :
    StdMap.assign "bumpMap" p2 (StdMap.assign "depthFill" p1
      [("bumpMap", pb), ("depthFill", pd)]) = [("bumpMap", p2), ("depthFill", p1)] := by
  simp [StdMap.assign, StdMap.find, StdMap.replace]

theorem setUsingGLSL_builtIn_of_keys (s : GLProgramFactory) (b : Bool)
    (h : StdMap.keys s._builtInPrograms = ["bumpMap", "depthFill"]) :
    (s.setUsingGLSL b)._builtInPrograms =
      [("bumpMap", s.heap.length + 1), ("depthFill", s.heap.length)] := by
  obtain ⟨pb, pd, hm⟩ := eq_of_keys h
  rw [setUsingGLSL_builtInPrograms, hm, assign_builtIn]

theorem getProgram_hit {s : GLProgramFactory} {v f : String} {p : GLProgramPtr}
    (h : StdMap.find (v, f) s._gamePrograms = some p) : s.getProgram v f = (p, s) := by
  simp [getProgram, h]

theorem getProgram_miss {s : GLProgramFactory} {v f : String}
    (h : StdMap.find (v, f) s._gamePrograms = none) :
    s.getProgram v f = (s.heap.length,
      { s with heap := s.heap ++ [⟨.GenericVFPProgram v f, []⟩],
               _gamePrograms := StdMap.place (v, f) s.heap.length s._gamePrograms }) := by
  simp [getProgram, h, make_shared, StdMap.insert]

/-! ### Calls on the objects of the heap -/

theorem length_call (c : ProgramCall) (heap : List GLProgram) (p : GLProgramPtr) :
    (call c heap p).length = heap.length := by
  unfold call
  split <;> simp

theorem getElem?_call (c : ProgramCall) (heap : List GLProgram) (p q : GLProgramPtr) :
    (call c heap p)[q]? = if q = p then (heap[q]?).map (GLProgram.called c) else heap[q]? := by
  unfold call
  by_cases hq : q = p
  · subst hq
    cases h : heap[q]? with
    | none => simp [h]
    | some o =>
      have hlt : q < heap.length := by
        by_contra hge
        rw [List.getElem?_eq_none (Nat.le_of_not_lt hge)] at h
        cases h
      simp [List.getElem?_set, hlt, GLProgram.called]
  · have hpq : ¬ p = q := fun e => hq e.symm
    split <;> simp [hq, List.getElem?_set, hpq]

theorem length_calls (c : ProgramCall) (ps : List GLProgramPtr) (heap : List GLProgram) :
    (ps.foldl (call c) heap).length = heap.length := by
  induction ps generalizing heap with
  | nil => rfl
  | cons p ps ih => simp [List.foldl_cons, ih, length_call]

theorem getElem?_calls (c : ProgramCall) (ps : List GLProgramPtr) (hn : ps.Nodup)
    (heap : List GLProgram) (q : GLProgramPtr) :
    (ps.foldl (call c) heap)[q]? =
      if q ∈ ps then (heap[q]?).map (GLProgram.called c) else heap[q]? := by
  induction ps generalizing heap with
  | nil => simp
  | cons p ps ih =>
    rw [List.nodup_cons] at hn
    rw [List.foldl_cons, ih hn.2, getElem?_call]
    by_cases hq : q = p
    · subst hq
      simp [hn.1]
    · simp [hq]

theorem realise_heap (s : GLProgramFactory) :
    s.realise.heap = (StdMap.values s._builtInPrograms).foldl (call .create) s.heap := by
  simp [realise, StdMap.values, List.foldl_map]

theorem unrealise_heap (s : GLProgramFactory) :
    s.unrealise.heap = (StdMap.values s._builtInPrograms).foldl (call .destroy) s.heap := by
  simp [unrealise, StdMap.values, List.foldl_map]

theorem cls_calls (c : ProgramCall) (ps : List GLProgramPtr) (heap : List GLProgram)
    (q : GLProgramPtr) :
    ((ps.foldl (call c) heap)[q]?).map GLProgram.cls = (heap[q]?).map GLProgram.cls := by
  induction ps generalizing heap with
  | nil => rfl
  | cons p ps ih =>
    rw [List.foldl_cons, ih, getElem?_call]
    split
    · cases heap[q]? <;> simp [GLProgram.called]
    · rfl

/-! ### Consistency of the reachable states -/

theorem wellFormed_new : WellFormed GLProgramFactory.new where
  builtIn_keys := by decide
  game_keys := by decide
  ptrs_nodup := by decide
  ptrs_valid := by decide
  game_cls := by
    intro k p h
    have : GLProgramFactory.new._gamePrograms = [] := rfl
    rw [this] at h
    cases h

theorem wellFormed_setUsingGLSL {s : GLProgramFactory} (h : WellFormed s) (b : Bool) :
    WellFormed (s.setUsingGLSL b) := by
  have hb := setUsingGLSL_builtIn_of_keys s b h.builtIn_keys
  have hg := setUsingGLSL_gamePrograms s b
  have hh := setUsingGLSL_heap s b
  have hvalid : ∀ p : Nat, p ∈ StdMap.values s._gamePrograms → p < s.heap.length :=
    fun p hp => h.ptrs_valid p (List.mem_append_right _ hp)
  refine ⟨?_, ?_, ?_, ?_, ?_⟩
  · rw [hb]; rfl
  · rw [hg]; exact h.game_keys
  · rw [hb, hg]
    simp only [StdMap.values, List.map_cons, List.map_nil, List.cons_append, List.nil_append,
      List.nodup_cons, List.mem_cons]
    refine ⟨?_, ?_, (List.nodup_append.1 h.ptrs_nodup).2.1⟩
    · rintro (h1 | h1)
      · exact Nat.succ_ne_self _ h1
      · have := hvalid _ h1
        omega
    · intro h1
      have := hvalid _ h1
      omega
  · rw [hb, hg, hh]
    intro p hp
    simp only [StdMap.values, List.map_cons, List.map_nil, List.cons_append, List.nil_append,
      List.mem_cons] at hp
    simp only [List.length_append, List.length_cons, List.length_nil]
    rcases hp with rfl | rfl | hp
    · omega
    · omega
    · have := hvalid _ hp
      omega
  · rw [hg]
    intro k p hkp
    have hlt : p < s.heap.length := hvalid p (List.mem_map.2 ⟨(k, p), hkp, rfl⟩)
    have := h.game_cls k p hkp
    simpa [deref, hh, List.getElem?_append_left hlt] using this

theorem wellFormed_getProgram {s : GLProgramFactory} (h : WellFormed s) (v f : String) :
    WellFormed (s.getProgram v f).2 := by
  cases hfind : StdMap.find (v, f) s._gamePrograms with
  | some p => rw [getProgram_hit hfind]; exact h
  | none =>
    rw [getProgram_miss hfind]
    have hfresh : s.heap.length ∉ StdMap.values s._builtInPrograms ++
        StdMap.values s._gamePrograms := fun hm => Nat.lt_irrefl _ (h.ptrs_valid _ hm)
    have hperm : List.Perm (StdMap.values s._builtInPrograms ++
        StdMap.values (StdMap.place (v, f) s.heap.length s._gamePrograms))
        (s.heap.length :: (StdMap.values s._builtInPrograms ++ StdMap.values s._gamePrograms)) :=
      ((StdMap.values_place_perm _ _ _).append_left _).trans List.perm_middle
    refine ⟨h.builtIn_keys, ?_, ?_, ?_, ?_⟩
    · refine (StdMap.keys_place_perm _ _ _).nodup_iff.2 (List.nodup_cons.2 ⟨?_, h.game_keys⟩)
      exact (StdMap.find_eq_none_iff _ _).1 hfind
    · exact hperm.nodup_iff.2 (List.nodup_cons.2 ⟨hfresh, h.ptrs_nodup⟩)
    · intro p hp
      have hp' := hperm.mem_iff.1 hp
      simp only [List.length_append, List.length_cons, List.length_nil]
      rcases List.mem_cons.1 hp' with rfl | hp'
      · omega
      · have := h.ptrs_valid p hp'
        omega
    · intro k p hkp
      have hkp' := (StdMap.place_perm _ _ _).mem_iff.1 hkp
      rcases List.mem_cons.1 hkp' with heq | hkp'
      · cases heq
        simp [deref]
      · have hlt : p < s.heap.length :=
          h.ptrs_valid p (List.mem_append_right _ (List.mem_map.2 ⟨(k, p), hkp', rfl⟩))
        have := h.game_cls k p hkp'
        simpa [deref, List.getElem?_append_left hlt] using this

theorem wellFormed_calls {s : GLProgramFactory} (h : WellFormed s) (c : ProgramCall) :
    WellFormed { s with heap := (StdMap.values s._builtInPrograms).foldl (call c) s.heap } := by
  refine ⟨h.builtIn_keys, h.game_keys, h.ptrs_nodup, ?_, ?_⟩
  · intro p hp
    simpa [length_calls] using h.ptrs_valid p hp
  · intro k p hkp
    have := h.game_cls k p hkp
    simpa [deref, cls_calls] using this

theorem wellFormed_realise {s : GLProgramFactory} (h : WellFormed s) : WellFormed s.realise := by
  have : s.realise = { s with heap := (StdMap.values s._builtInPrograms).foldl (call .create) s.heap } := by
    simp [realise, StdMap.values, List.foldl_map]
  rw [this]
  exact wellFormed_calls h _

theorem wellFormed_unrealise {s : GLProgramFactory} (h : WellFormed s) :
    WellFormed s.unrealise := by
  have : s.unrealise = { s with heap := (StdMap.values s._builtInPrograms).foldl (call .destroy) s.heap } := by
    simp [unrealise, StdMap.values, List.foldl_map]
  rw [this]
  exact wellFormed_calls h _

theorem Reachable.wellFormed {s : GLProgramFactory} (h : Reachable s) : WellFormed s := by
  induction h with
  | new => exact wellFormed_new
  | setUsingGLSL b _ ih => exact wellFormed_setUsingGLSL ih b
  | getProgram v f _ ih => exact wellFormed_getProgram ih v f
  | realise _ ih => exact wellFormed_realise ih
  | unrealise _ ih => exact wellFormed_unrealise ih

/-! ### The game-program cache -/

theorem find_getProgram_self (s : GLProgramFactory) (v f : String) :
    StdMap.find (v, f) (s.getProgram v f).2._gamePrograms = some (s.getProgram v f).1 := by
  cases hfind : StdMap.find (v, f) s._gamePrograms with
  | some p => rw [getProgram_hit hfind]; exact hfind
  | none =>
    rw [getProgram_miss hfind]
    exact StdMap.find_place_self _ _ _ hfind

theorem find_getProgram_of_find {s : GLProgramFactory} {k : String × String}
    {p : GLProgramPtr} (h : StdMap.find k s._gamePrograms = some p) (v f : String) :
    StdMap.find k (s.getProgram v f).2._gamePrograms = some p := by
  cases hfind : StdMap.find (v, f) s._gamePrograms with
  | some q => rw [getProgram_hit hfind]; exact h
  | none =>
    rw [getProgram_miss hfind]
    have hne : k ≠ (v, f) := by
      rintro rfl
      rw [hfind] at h
      cases h
    simpa [StdMap.find_place_ne _ _ _ hne] using h

theorem getProgram_builtInPrograms (s : GLProgramFactory) (v f : String) :
    (s.getProgram v f).2._builtInPrograms = s._builtInPrograms := by
  cases hfind : StdMap.find (v, f) s._gamePrograms with
  | some p => rw [getProgram_hit hfind]
  | none => rw [getProgram_miss hfind]

theorem mem_keys_getProgram (s : GLProgramFactory) (v f : String) (k : String × String) :
    k ∈ StdMap.keys (s.getProgram v f).2._gamePrograms ↔
      k = (v, f) ∨ k ∈ StdMap.keys s._gamePrograms := by
  cases hfind : StdMap.find (v, f) s._gamePrograms with
  | some p =>
    rw [getProgram_hit hfind]
    constructor
    · exact Or.inr
    · rintro (rfl | h)
      · exact List.mem_map.2 ⟨_, StdMap.mem_of_find_eq_some hfind, rfl⟩
      · exact h
  | none =>
    rw [getProgram_miss hfind]
    simpa using (StdMap.keys_place_perm (v, f) s.heap.length s._gamePrograms).mem_iff

theorem mem_keys_getPrograms (reqs : List (String × String)) (s : GLProgramFactory)
    (k : String × String) :
    k ∈ StdMap.keys (s.getPrograms reqs)._gamePrograms ↔
      k ∈ StdMap.keys s._gamePrograms ∨ k ∈ reqs := by
  induction reqs generalizing s with
  | nil => simp [getPrograms]
  | cons r reqs ih =>
    obtain ⟨v, f⟩ := r
    rw [getPrograms, ih, mem_keys_getProgram, List.mem_cons]
    tauto

theorem Reachable.getPrograms {s : GLProgramFactory} (h : Reachable s)
    (reqs : List (String × String)) : Reachable (s.getPrograms reqs) := by
  induction reqs generalizing s with
  | nil => exact h
  | cons r reqs ih =>
    obtain ⟨v, f⟩ := r
    exact ih (h.getProgram v f)

theorem key_unique_of_values_nodup {K V : Type} {m : StdMap K V} (hn : (StdMap.values m).Nodup)
    {k1 k2 : K} {p : V} (h1 : (k1, p) ∈ m) (h2 : (k2, p) ∈ m) : k1 = k2 := by
  induction m with
  | nil => cases h1
  | cons e m ih =>
    simp only [StdMap.values, List.map_cons, List.nodup_cons] at hn
    rcases List.mem_cons.1 h1 with h1 | h1 <;> rcases List.mem_cons.1 h2 with h2 | h2
    · rw [← h2] at h1
      exact congrArg Prod.fst h1
    · exact absurd (List.mem_map.2 ⟨(k2, p), h2, by rw [← h1]⟩) hn.1
    · exact absurd (List.mem_map.2 ⟨(k1, p), h1, by rw [← h2]⟩) hn.1
    · exact ih hn.2 h1 h2

/-! ### What the maps show -/

theorem deref_setUsingGLSL {s : GLProgramFactory} (b : Bool) {p : Nat}
    (hp : p < s.heap.length) : (s.setUsingGLSL b).deref p = s.deref p := by
  simp [deref, setUsingGLSL_heap, List.getElem?_append_left hp]

theorem getElem?_append_pair (heap : List GLProgram) (a b : GLProgram) :
    (heap ++ [a, b])[heap.length]? = some a ∧ (heap ++ [a, b])[heap.length + 1]? = some b := by
  constructor
  · rw [List.getElem?_append_right (Nat.le_refl _)]
    simp
  · rw [List.getElem?_append_right (Nat.le_succ _)]
    simp

theorem builtInView_setUsingGLSL (s : GLProgramFactory) (b : Bool)
    (h : StdMap.keys s._builtInPrograms = ["bumpMap", "depthFill"]) :
    builtInView (s.setUsingGLSL b) =
      [("bumpMap", some ⟨bumpMapClass b, []⟩), ("depthFill", some ⟨depthFillClass b, []⟩)] := by
  have hp := getElem?_append_pair s.heap ⟨depthFillClass b, []⟩ ⟨bumpMapClass b, []⟩
  simp only [builtInView, setUsingGLSL_builtIn_of_keys s b h, deref, setUsingGLSL_heap,
    List.map_cons, List.map_nil, hp.1, hp.2]

theorem gameView_setUsingGLSL {s : GLProgramFactory} (h : WellFormed s) (b : Bool) :
    gameView (s.setUsingGLSL b) = gameView s := by
  unfold gameView
  rw [setUsingGLSL_gamePrograms]
  apply List.map_congr_left
  rintro ⟨k, p⟩ hkp
  have hlt : p < s.heap.length :=
    h.ptrs_valid p (List.mem_append_right _ (List.mem_map.2 ⟨(k, p), hkp, rfl⟩))
  simp [deref_setUsingGLSL b hlt]

theorem deref_calls_of_mem {s : GLProgramFactory} (h : WellFormed s) (c : ProgramCall)
    {p : Nat} (hp : p ∈ StdMap.values s._builtInPrograms) :
    ∃ o, s.deref p = some o ∧
      ((StdMap.values s._builtInPrograms).foldl (call c) s.heap)[p]? = some (o.called c) := by
  have hlt : p < s.heap.length := h.ptrs_valid p (List.mem_append_left _ hp)
  refine ⟨s.heap[p], by simp [deref, hlt], ?_⟩
  rw [getElem?_calls c _ (List.nodup_append.1 h.ptrs_nodup).1]
  simp [hp, hlt]

theorem deref_calls_of_not_mem {s : GLProgramFactory} (h : WellFormed s) (c : ProgramCall)
    {p : Nat} (hp : p ∉ StdMap.values s._builtInPrograms) :
    ((StdMap.values s._builtInPrograms).foldl (call c) s.heap)[p]? = s.deref p := by
  rw [getElem?_calls c _ (List.nodup_append.1 h.ptrs_nodup).1]
  simp [hp, deref]

theorem not_builtIn_of_game {s : GLProgramFactory} (h : WellFormed s) {p : Nat}
    (hp : p ∈ StdMap.values s._gamePrograms) : p ∉ StdMap.values s._builtInPrograms :=
  fun hb => (List.nodup_append.1 h.ptrs_nodup).2.2 hb hp

theorem gameView_calls {s : GLProgramFactory} (h : WellFormed s) (c : ProgramCall) :
    s._gamePrograms.map (fun pair => (pair.1, pair.2,
      ((StdMap.values s._builtInPrograms).foldl (call c) s.heap)[pair.2]?)) = gameView s := by
  unfold gameView
  apply List.map_congr_left
  rintro ⟨k, p⟩ hkp
  have hp : p ∈ StdMap.values s._gamePrograms := List.mem_map.2 ⟨(k, p), hkp, rfl⟩
  simp [deref_calls_of_not_mem h c (not_builtIn_of_game h hp)]

/-- C1: when the keys of the built-in map are distinct (as in every
`std::map`), `getBuiltInProgram(name)` returns the program stored under
`name` whenever `name` is a key, and it ends in an error exactly when
`name` is not a key; the error is a `std::runtime_error`. -/
theorem getBuiltInProgram_lookup (s : GLProgramFactory) (name : String)
    (hkeys : (StdMap.keys s._builtInPrograms).Nodup) :
    (∀ p, (name, p) ∈ s._builtInPrograms → s.getBuiltInProgram name = .ok p) ∧
    (name ∈ StdMap.keys s._builtInPrograms → ∃ p, (name, p) ∈ s._builtInPrograms ∧
      s.getBuiltInProgram name = .ok p) ∧
    ((∃ e, s.getBuiltInProgram name = .error e) ↔ name ∉ StdMap.keys s._builtInPrograms) ∧
    (name ∉ StdMap.keys s._builtInPrograms → s.getBuiltInProgram name =
      .error (.runtime_error ("GLProgramFactory: failed to find program " ++ name))) := by
  have hok : ∀ p, (name, p) ∈ s._builtInPrograms → s.getBuiltInProgram name = .ok p := by
    intro p hp
    simp [getBuiltInProgram, StdMap.find_eq_some_of_mem hkeys hp]
  have herr : name ∉ StdMap.keys s._builtInPrograms → s.getBuiltInProgram name =
      .error (.runtime_error ("GLProgramFactory: failed to find program " ++ name)) := by
    intro hn
    simp [getBuiltInProgram, (StdMap.find_eq_none_iff name _).2 hn]
  refine ⟨hok, ?_, ?_, herr⟩
  · intro hk
    obtain ⟨⟨k, p⟩, hmem, rfl⟩ := List.mem_map.1 hk
    exact ⟨p, hmem, hok p hmem⟩
  · constructor
    · rintro ⟨e, he⟩ hk
      obtain ⟨⟨k, p⟩, hmem, rfl⟩ := List.mem_map.1 hk
      rw [hok p hmem] at he
      cases he
    · intro hn
      exact ⟨_, herr hn⟩

/-- C1, at the constructed factory and the name "depthFill". -/
theorem getBuiltInProgram_lookup_witness :
    (StdMap.keys GLProgramFactory.new._builtInPrograms).Nodup ∧
    GLProgramFactory.new.getBuiltInProgram "depthFill" = .ok 0 :=
  ⟨by decide,
   (getBuiltInProgram_lookup GLProgramFactory.new "depthFill" (by decide)).1 0 (by decide)⟩

/-- C2: on the constructed factory, before any `setUsingGLSL` call by the
client, `getBuiltInProgram("depthFill")` returns a program of class
`ARBDepthFillProgram` and `getBuiltInProgram("bumpMap")` one of class
`ARBBumpProgram`; neither call ends in an error. -/
theorem new_builtIn_is_ARB :
    (∃ p, GLProgramFactory.new.getBuiltInProgram "depthFill" = .ok p ∧
      (GLProgramFactory.new.deref p).map GLProgram.cls = some .ARBDepthFillProgram) ∧
    (∃ p, GLProgramFactory.new.getBuiltInProgram "bumpMap" = .ok p ∧
      (GLProgramFactory.new.deref p).map GLProgram.cls = some .ARBBumpProgram) :=
  ⟨⟨0, rfl, by decide⟩, ⟨1, rfl, by decide⟩⟩

/-! ## Game programs -/

/-- C3: for every factory state and every pair of filenames, a second
`getProgram(v, f)` returns the same instance as the first and leaves the
factory, its game-program cache included, exactly as the first call left it;
that instance is the one cached under `(v, f)`. -/
theorem getProgram_twice (s : GLProgramFactory) (v f : String) :
    ((s.getProgram v f).2.getProgram v f).1 = (s.getProgram v f).1 ∧
    ((s.getProgram v f).2.getProgram v f).2 = (s.getProgram v f).2 ∧
    ((s.getProgram v f).2.getProgram v f).2._gamePrograms = (s.getProgram v f).2._gamePrograms ∧
    StdMap.find (v, f) (s.getProgram v f).2._gamePrograms = some (s.getProgram v f).1 := by
  have h := find_getProgram_self s v f
  rw [getProgram_hit h]
  exact ⟨rfl, rfl, rfl, h⟩

/-- C4, as stated, fails when both filenames are the same: on the
constructed factory the pair ("a", "a") swapped is the same key, and both
calls return the one instance cached under it. -/
theorem swapDistinct_fails_on_equal_names :
    ¬ SwapDistinct GLProgramFactory.new "a" "a" ∧
    ((GLProgramFactory.new.getProgram "a" "a").2.getProgram "a" "a").1 =
      (GLProgramFactory.new.getProgram "a" "a").1 ∧
    ((GLProgramFactory.new.getProgram "a" "a").2.getProgram "a" "a").2._gamePrograms =
      [(("a", "a"), 2)] :=
  ⟨fun h => h.1 (by decide), by decide, by decide⟩

/-- C4, amended: in every reachable factory state and for every two
different filenames `v` and `f`, `getProgram(v, f)` followed by
`getProgram(f, v)` returns two different instances, and the cache then holds
one under the key `(v, f)` and the other under the key `(f, v)`. -/
theorem swapDistinct_of_ne {s : GLProgramFactory} (hs : Reachable s) {v f : String}
    (hvf : v ≠ f) : SwapDistinct s v f := by
  have hkey : (v, f) ≠ (f, v) := fun e => hvf (congrArg Prod.fst e)
  have h1 : StdMap.find (v, f) ((s.getProgram v f).2.getProgram f v).2._gamePrograms =
      some (s.getProgram v f).1 := find_getProgram_of_find (find_getProgram_self s v f) f v
  have h2 := find_getProgram_self (s.getProgram v f).2 f v
  have hwf : WellFormed ((s.getProgram v f).2.getProgram f v).2 :=
    ((hs.getProgram v f).getProgram f v).wellFormed
  refine ⟨?_, hkey, h1, h2⟩
  intro heq
  rw [← heq] at h2
  exact hkey (key_unique_of_values_nodup (List.nodup_append.1 hwf.ptrs_nodup).2.1
    (StdMap.mem_of_find_eq_some h1) (StdMap.mem_of_find_eq_some h2))

/-- C4, amended, at the constructed factory and the filenames "a", "b". -/
theorem swapDistinct_of_ne_witness : SwapDistinct GLProgramFactory.new "a" "b" :=
  swapDistinct_of_ne Reachable.new (by decide)

/-! ## Choosing the built-in variant -/

/-- C5: in every reachable factory state, after `setUsingGLSL(true)` and
then `setUsingGLSL(false)` the built-in map has exactly the two entries
"bumpMap" and "depthFill", the first a newly made `ARBBumpProgram` and the
second a newly made `ARBDepthFillProgram`; no entry refers to a GLSL
program. -/
theorem setUsingGLSL_true_false {s : GLProgramFactory} (hs : Reachable s) :
    (∃ pb pd, ((s.setUsingGLSL true).setUsingGLSL false)._builtInPrograms =
        [("bumpMap", pb), ("depthFill", pd)] ∧
      ((s.setUsingGLSL true).setUsingGLSL false).deref pb = some ⟨.ARBBumpProgram, []⟩ ∧
      ((s.setUsingGLSL true).setUsingGLSL false).deref pd = some ⟨.ARBDepthFillProgram, []⟩) ∧
    (∀ k p o, (k, p) ∈ ((s.setUsingGLSL true).setUsingGLSL false)._builtInPrograms →
      ((s.setUsingGLSL true).setUsingGLSL false).deref p = some o →
      o.cls ≠ .GLSLDepthFillProgram ∧ o.cls ≠ .GLSLBumpProgram) := by
  have hk := (hs.setUsingGLSL true).wellFormed.builtIn_keys
  have hb := setUsingGLSL_builtIn_of_keys (s.setUsingGLSL true) false hk
  have hp := getElem?_append_pair (s.setUsingGLSL true).heap
    ⟨depthFillClass false, []⟩ ⟨bumpMapClass false, []⟩
  have hpb : ((s.setUsingGLSL true).setUsingGLSL false).deref ((s.setUsingGLSL true).heap.length + 1)
      = some ⟨.ARBBumpProgram, []⟩ := by
    rw [deref, setUsingGLSL_heap, hp.2]; rfl
  have hpd : ((s.setUsingGLSL true).setUsingGLSL false).deref (s.setUsingGLSL true).heap.length
      = some ⟨.ARBDepthFillProgram, []⟩ := by
    rw [deref, setUsingGLSL_heap, hp.1]; rfl
  refine ⟨⟨_, _, hb, hpb, hpd⟩, ?_⟩
  intro k p o hkp ho
  rw [hb] at hkp
  simp only [List.mem_cons, Prod.mk.injEq, List.mem_nil_iff, or_false] at hkp
  rcases hkp with ⟨_, rfl⟩ | ⟨_, rfl⟩
  · rw [hpb] at ho
    cases ho
    exact ⟨by decide, by decide⟩
  · rw [hpd] at ho
    cases ho
    exact ⟨by decide, by decide⟩

/-- C5, at the constructed factory. -/
theorem setUsingGLSL_true_false_witness :
    builtInView ((GLProgramFactory.new.setUsingGLSL true).setUsingGLSL false) =
      [("bumpMap", some ⟨.ARBBumpProgram, []⟩), ("depthFill", some ⟨.ARBDepthFillProgram, []⟩)] ∧
    ∃ pb pd, ((GLProgramFactory.new.setUsingGLSL true).setUsingGLSL false)._builtInPrograms =
      [("bumpMap", pb), ("depthFill", pd)] :=
  ⟨by decide,
   (setUsingGLSL_true_false Reachable.new).1.imp fun _ h => h.imp fun _ h => h.1⟩

/-- C6: in every reachable factory state and for either flag, calling
`setUsingGLSL(b)` twice shows the same factory as calling it once: the same
built-in keys, under each key an object of the same class that has received
no call, and the same game-program cache (keys, pointers and objects). -/
theorem setUsingGLSL_idempotent {s : GLProgramFactory} (hs : Reachable s) (b : Bool) :
    builtInView ((s.setUsingGLSL b).setUsingGLSL b) = builtInView (s.setUsingGLSL b) ∧
    StdMap.keys ((s.setUsingGLSL b).setUsingGLSL b)._builtInPrograms =
      StdMap.keys (s.setUsingGLSL b)._builtInPrograms ∧
    ((s.setUsingGLSL b).setUsingGLSL b)._gamePrograms = (s.setUsingGLSL b)._gamePrograms ∧
    gameView ((s.setUsingGLSL b).setUsingGLSL b) = gameView (s.setUsingGLSL b) := by
  have h1 := (hs.setUsingGLSL b).wellFormed
  have h2 := ((hs.setUsingGLSL b).setUsingGLSL b).wellFormed
  refine ⟨?_, ?_, setUsingGLSL_gamePrograms _ b, gameView_setUsingGLSL h1 b⟩
  · rw [builtInView_setUsingGLSL _ b h1.builtIn_keys,
      builtInView_setUsingGLSL _ b hs.wellFormed.builtIn_keys]
  · rw [h1.builtIn_keys, h2.builtIn_keys]

/-- C6, at the constructed factory with one cached game program, for the
GLSL flag. -/
theorem setUsingGLSL_idempotent_witness :
    builtInView (((GLProgramFactory.new.getProgram "v" "f").2.setUsingGLSL true).setUsingGLSL true)
      = builtInView ((GLProgramFactory.new.getProgram "v" "f").2.setUsingGLSL true) :=
  (setUsingGLSL_idempotent (Reachable.new.getProgram "v" "f") true).1

/-! ## One program per key -/

/-- C7: after any sequence of `getProgram` calls on the constructed factory
the cache has pairwise distinct keys, its keys are exactly the requested
pairs, so it has one entry per distinct requested pair, and the program
under a pair was constructed from that pair. From such a state, a call for
an uncached pair adds exactly one entry, under that pair and for a newly
constructed program, and every call keeps each cached entry with its pointer
and its object. -/
theorem getPrograms_one_per_key (reqs : List (String × String)) :
    (StdMap.keys (GLProgramFactory.new.getPrograms reqs)._gamePrograms).Nodup ∧
    (∀ k, k ∈ StdMap.keys (GLProgramFactory.new.getPrograms reqs)._gamePrograms ↔ k ∈ reqs) ∧
    (GLProgramFactory.new.getPrograms reqs)._gamePrograms.length = reqs.dedup.length ∧
    (∀ k p, (k, p) ∈ (GLProgramFactory.new.getPrograms reqs)._gamePrograms →
      ((GLProgramFactory.new.getPrograms reqs).deref p).map GLProgram.cls =
        some (.GenericVFPProgram k.1 k.2)) ∧
    (∀ v f, StdMap.find (v, f) (GLProgramFactory.new.getPrograms reqs)._gamePrograms = none →
      List.Perm ((GLProgramFactory.new.getPrograms reqs).getProgram v f).2._gamePrograms
        (((v, f), ((GLProgramFactory.new.getPrograms reqs).getProgram v f).1) ::
          (GLProgramFactory.new.getPrograms reqs)._gamePrograms) ∧
      ((GLProgramFactory.new.getPrograms reqs).getProgram v f).2._gamePrograms.length =
        (GLProgramFactory.new.getPrograms reqs)._gamePrograms.length + 1 ∧
      ((GLProgramFactory.new.getPrograms reqs).getProgram v f).2.deref
        ((GLProgramFactory.new.getPrograms reqs).getProgram v f).1 =
          some ⟨.GenericVFPProgram v f, []⟩) ∧
    (∀ v f k p, StdMap.find k (GLProgramFactory.new.getPrograms reqs)._gamePrograms = some p →
      StdMap.find k ((GLProgramFactory.new.getPrograms reqs).getProgram v f).2._gamePrograms =
        some p ∧
      ((GLProgramFactory.new.getPrograms reqs).getProgram v f).2.deref p =
        (GLProgramFactory.new.getPrograms reqs).deref p) ∧
    (∀ v f p, StdMap.find (v, f) (GLProgramFactory.new.getPrograms reqs)._gamePrograms = some p →
      ((GLProgramFactory.new.getPrograms reqs).getProgram v f).2._gamePrograms =
        (GLProgramFactory.new.getPrograms reqs)._gamePrograms) := by
  generalize ht : GLProgramFactory.new.getPrograms reqs = t
  have hr : Reachable t := ht ▸ Reachable.new.getPrograms reqs
  have hwf := hr.wellFormed
  have hmem : ∀ k, k ∈ StdMap.keys t._gamePrograms ↔ k ∈ reqs := by
    intro k
    rw [← ht, mem_keys_getPrograms]
    have : GLProgramFactory.new._gamePrograms = [] := rfl
    simp [this, StdMap.keys]
  refine ⟨hwf.game_keys, hmem, ?_, hwf.game_cls, ?_, ?_, ?_⟩
  · have hperm : List.Perm (StdMap.keys t._gamePrograms) reqs.dedup :=
      (List.perm_ext_iff_of_nodup hwf.game_keys (List.nodup_dedup reqs)).2
        (fun k => by rw [hmem, List.mem_dedup])
    simpa [StdMap.keys] using hperm.length_eq
  · intro v f hfind
    rw [getProgram_miss hfind]
    refine ⟨StdMap.place_perm _ _ _, StdMap.length_place _ _ _, ?_⟩
    simp [deref]
  · intro v f k p hk
    refine ⟨find_getProgram_of_find hk v f, ?_⟩
    have hlt : p < t.heap.length :=
      hwf.ptrs_valid p (List.mem_append_right _ (StdMap.mem_values_of_find hk))
    cases hfind : StdMap.find (v, f) t._gamePrograms with
    | some q => rw [getProgram_hit hfind]
    | none =>
      rw [getProgram_miss hfind]
      simp [deref, List.getElem?_append_left hlt]
  · intro v f p hfind
    rw [getProgram_hit hfind]

/-- C7, at the requests ("a", "b"), ("b", "a"), ("a", "b"): two distinct
pairs, two entries, and a further request for ("c", "d") adds one. -/
theorem getPrograms_one_per_key_witness :
    StdMap.find ("c", "d")
      (GLProgramFactory.new.getPrograms [("a", "b"), ("b", "a"), ("a", "b")])._gamePrograms = none ∧
    ((GLProgramFactory.new.getPrograms [("a", "b"), ("b", "a"), ("a", "b")]).getProgram
      "c" "d").2._gamePrograms.length =
      (GLProgramFactory.new.getPrograms [("a", "b"), ("b", "a"), ("a", "b")])._gamePrograms.length
        + 1 :=
  ⟨by decide,
   ((getPrograms_one_per_key [("a", "b"), ("b", "a"), ("a", "b")]).2.2.2.2.1
     "c" "d" (by decide)).2.1⟩

/-! ## Realising and unrealising -/

/-- C8: in every reachable factory state, `realise()` makes exactly one
`create()` call on each program of the built-in map and `unrealise()`
exactly one `destroy()` call; objects outside the built-in map receive no
call, and the built-in map holds the same pointers to objects of the same
classes afterwards. -/
theorem realise_unrealise_calls {s : GLProgramFactory} (hs : Reachable s) :
    (s.realise._builtInPrograms = s._builtInPrograms ∧
      (∀ k p, (k, p) ∈ s._builtInPrograms →
        ∃ o, s.deref p = some o ∧
          s.realise.deref p = some ⟨o.cls, o.calls ++ [.create]⟩) ∧
      (∀ p, p ∉ StdMap.values s._builtInPrograms → s.realise.deref p = s.deref p)) ∧
    (s.unrealise._builtInPrograms = s._builtInPrograms ∧
      (∀ k p, (k, p) ∈ s._builtInPrograms →
        ∃ o, s.deref p = some o ∧
          s.unrealise.deref p = some ⟨o.cls, o.calls ++ [.destroy]⟩) ∧
      (∀ p, p ∉ StdMap.values s._builtInPrograms → s.unrealise.deref p = s.deref p)) := by
  have hwf := hs.wellFormed
  refine ⟨⟨rfl, ?_, ?_⟩, ⟨rfl, ?_, ?_⟩⟩
  · intro k p hkp
    have hp : p ∈ StdMap.values s._builtInPrograms := List.mem_map.2 ⟨(k, p), hkp, rfl⟩
    obtain ⟨o, ho, hc⟩ := deref_calls_of_mem hwf .create hp
    exact ⟨o, ho, by rw [deref, realise_heap, hc]; rfl⟩
  · intro p hp
    rw [deref, realise_heap, deref_calls_of_not_mem hwf .create hp]
  · intro k p hkp
    have hp : p ∈ StdMap.values s._builtInPrograms := List.mem_map.2 ⟨(k, p), hkp, rfl⟩
    obtain ⟨o, ho, hc⟩ := deref_calls_of_mem hwf .destroy hp
    exact ⟨o, ho, by rw [deref, unrealise_heap, hc]; rfl⟩
  · intro p hp
    rw [deref, unrealise_heap, deref_calls_of_not_mem hwf .destroy hp]

/-- C8, at the constructed factory: after `realise()` the program under
"depthFill" has received one `create()`. -/
theorem realise_unrealise_calls_witness :
    ∃ o, GLProgramFactory.new.deref 0 = some o ∧
      GLProgramFactory.new.realise.deref 0 = some ⟨o.cls, o.calls ++ [.create]⟩ :=
  (realise_unrealise_calls Reachable.new).1.2.1 "depthFill" 0 (by decide)

/-- C9: the constructed factory has an empty game-program cache; in every
reachable state `realise()` and `unrealise()` leave the cache, its pointers
and the objects they refer to unchanged and allocate no object, and
`setUsingGLSL` leaves the cache unchanged; `getProgram` for an uncached pair
adds one entry, whose program has been constructed from the pair and has
received no `create()` call. -/
theorem gamePrograms_lazy {s : GLProgramFactory} (hs : Reachable s) :
    GLProgramFactory.new._gamePrograms = [] ∧
    (s.realise._gamePrograms = s._gamePrograms ∧ gameView s.realise = gameView s ∧
      s.realise.heap.length = s.heap.length) ∧
    (s.unrealise._gamePrograms = s._gamePrograms ∧ gameView s.unrealise = gameView s ∧
      s.unrealise.heap.length = s.heap.length) ∧
    (∀ b, (s.setUsingGLSL b)._gamePrograms = s._gamePrograms) ∧
    (∀ v f, StdMap.find (v, f) s._gamePrograms = none →
      (s.getProgram v f).2._gamePrograms.length = s._gamePrograms.length + 1 ∧
      StdMap.find (v, f) (s.getProgram v f).2._gamePrograms = some (s.getProgram v f).1 ∧
      (s.getProgram v f).2.deref (s.getProgram v f).1 = some ⟨.GenericVFPProgram v f, []⟩) := by
  have hwf := hs.wellFormed
  refine ⟨rfl, ⟨rfl, ?_, ?_⟩, ⟨rfl, ?_, ?_⟩, setUsingGLSL_gamePrograms s, ?_⟩
  · show List.map (fun pair => (pair.1, pair.2, s.realise.heap[pair.2]?)) s._gamePrograms = _
    rw [realise_heap]
    exact gameView_calls hwf .create
  · rw [realise_heap, length_calls]
  · show List.map (fun pair => (pair.1, pair.2, s.unrealise.heap[pair.2]?)) s._gamePrograms = _
    rw [unrealise_heap]
    exact gameView_calls hwf .destroy
  · rw [unrealise_heap, length_calls]
  · intro v f hfind
    refine ⟨?_, find_getProgram_self s v f, ?_⟩
    · rw [getProgram_miss hfind]
      exact StdMap.length_place _ _ _
    · rw [getProgram_miss hfind]
      simp [deref]

/-- C9, at the constructed factory after one `getProgram` call: `realise()`
leaves the cached program without a `create()` call. -/
theorem gamePrograms_lazy_witness :
    gameView (GLProgramFactory.new.getProgram "v" "f").2.realise =
      [(("v", "f"), 2, some ⟨.GenericVFPProgram "v" "f", []⟩)] :=
  (gamePrograms_lazy (Reachable.new.getProgram "v" "f")).2.1.2.1.trans (by decide)

/-! ## Reading program files -/

theorem extracted_of_le (data : List Nat) {size : Nat} (h : size ≤ STREAMSIZE_MAX) :
    extracted data size = data.take size := by
  unfold extracted
  rw [if_neg (by omega)]

theorem extracted_length_le (data : List Nat) (size : Nat) :
    (extracted data size).length ≤ size := by
  unfold extracted
  split
  · simp
  · simp only [List.length_take]
    omega

theorem extracted_length_le_bufSize (data : List Nat) {size : Nat} (nullTerminated : Bool)
    (hsize : size < SIZE_RANGE) :
    (extracted data size).length ≤ bufSize size nullTerminated := by
  by_cases h : STREAMSIZE_MAX < size
  · simp [extracted, h]
  · have hle := extracted_length_le data size
    cases nullTerminated with
    | false => simpa [bufSize] using hle
    | true =>
      have h1 : (size + 1) % SIZE_RANGE = size + 1 :=
        Nat.mod_eq_of_lt (by simp only [STREAMSIZE_MAX, SIZE_RANGE] at *; omega)
      simp only [bufSize, if_true, h1]
      omega

theorem newVector_ok (env : FileEnv) {n : Nat} (hmax : n ≤ MAX_SIZE) (hheap : n ≤ env.heapSize) :
    newVector env n = .ok (List.replicate n 0) := by
  unfold newVector
  rw [if_neg (by omega), if_neg (by omega)]

/-- Reading into a fresh vector that has room: the extracted characters
followed by the zeros that are left. The pointer is used only when the
vector is not empty. -/
theorem readThrough_replicate (data : List Nat) (size n : Nat)
    (h : (extracted data size).length ≤ n) :
    readThrough data (List.replicate n 0) (front (List.replicate n 0)) size =
      .ok (extracted data size ++ List.replicate (n - (extracted data size).length) 0) := by
  unfold readThrough
  cases hE : extracted data size with
  | nil => simp
  | cons c rest =>
    rw [hE] at h
    cases n with
    | zero => simp at h
    | succ k =>
      have hlen : ¬ (List.replicate (k + 1) 0).length < (c :: rest).length := by
        simp only [List.length_replicate]
        omega
      simp only [List.replicate_succ, front]
      rw [← List.replicate_succ, if_neg hlen]
      simp [read, hE]

/-- For a file that can be opened and a vector that can be allocated,
`getFileAsBuffer` returns the extracted characters followed by zeros up to
the buffer size. -/
theorem getFileAsBuffer_of_allocated (env : FileEnv) (filename : String)
    (nullTerminated : Bool) (data : List Nat)
    (hopen : env.fileData (getBuiltInGLProgramPath env filename) = some data)
    (hmax : bufSize (env.getFileSize (getBuiltInGLProgramPath env filename) % SIZE_RANGE)
      nullTerminated ≤ MAX_SIZE)
    (hheap : bufSize (env.getFileSize (getBuiltInGLProgramPath env filename) % SIZE_RANGE)
      nullTerminated ≤ env.heapSize) :
    getFileAsBuffer env filename nullTerminated =
      .ok (extracted data (env.getFileSize (getBuiltInGLProgramPath env filename) % SIZE_RANGE) ++
        List.replicate
          (bufSize (env.getFileSize (getBuiltInGLProgramPath env filename) % SIZE_RANGE)
              nullTerminated -
            (extracted data
              (env.getFileSize (getBuiltInGLProgramPath env filename) % SIZE_RANGE)).length) 0) := by
  have hlt : env.getFileSize (getBuiltInGLProgramPath env filename) % SIZE_RANGE < SIZE_RANGE :=
    Nat.mod_lt _ (by decide)
  simp only [getFileAsBuffer, openAndAllocate, hopen, newVector_ok env hmax hheap]
  exact readThrough_replicate data _ _ (extracted_length_le_bufSize data nullTerminated hlt)

/-- For an open file whose reported size is the length of its content `c`:
the null-terminated buffer is `c` followed by one `0`, the raw buffer is
`c`, also when `c` is empty. -/
theorem getFileAsBuffer_content (env : FileEnv) (filename : String) (c : List Nat)
    (hopen : env.fileData (getBuiltInGLProgramPath env filename) = some c)
    (hsize : env.getFileSize (getBuiltInGLProgramPath env filename) = c.length) :
    getFileAsBuffer env filename true = .ok (c ++ [0]) ∧
    getFileAsBuffer env filename false = .ok c := by
  obtain ⟨hfmax, hfheap⟩ := env.fits _ c hopen
  have hmod : c.length % SIZE_RANGE = c.length :=
    Nat.mod_eq_of_lt (by simp only [MAX_SIZE, SIZE_RANGE] at *; omega)
  have hmod1 : (c.length + 1) % SIZE_RANGE = c.length + 1 :=
    Nat.mod_eq_of_lt (by simp only [MAX_SIZE, SIZE_RANGE] at *; omega)
  have hext : extracted c c.length = c := by
    rw [extracted_of_le c (by simp only [MAX_SIZE, STREAMSIZE_MAX] at *; omega), List.take_length]
  constructor
  · have h := getFileAsBuffer_of_allocated env filename true c hopen
      (by simp only [hsize, hmod, bufSize, if_true, hmod1]; omega)
      (by simp only [hsize, hmod, bufSize, if_true, hmod1]; omega)
    rw [h]
    simp [hsize, hmod, bufSize, hmod1, hext]
  · have h := getFileAsBuffer_of_allocated env filename false c hopen
      (by simp only [hsize, hmod, bufSize]; simp; omega)
      (by simp only [hsize, hmod, bufSize]; simp; omega)
    rw [h]
    simp [hsize, hmod, bufSize, hext]

/-- C10: for every program file that can be opened, with content `c` of `n`
bytes (the size that `os::getFileSize` reports), `getFileAsBuffer(file, true)`
returns a buffer of length `n + 1` whose first `n` bytes are `c` and whose
last byte is 0, and `getFileAsBuffer(file, false)` returns a buffer of length
exactly `n` that is equal to `c`, for `n = 0` too. -/
theorem getFileAsBuffer_returns_content (env : FileEnv) (filename : String) (c : List Nat)
    (hopen : env.fileData (getBuiltInGLProgramPath env filename) = some c)
    (hsize : env.getFileSize (getBuiltInGLProgramPath env filename) = c.length) :
    (∃ buffer, getFileAsBuffer env filename true = .ok buffer ∧
      buffer.length = c.length + 1 ∧ buffer.take c.length = c ∧
      buffer.getLast? = some 0 ∧ buffer = c ++ [0]) ∧
    (∃ buffer, getFileAsBuffer env filename false = .ok buffer ∧
      buffer.length = c.length ∧ buffer = c) := by
  obtain ⟨ht, hr⟩ := getFileAsBuffer_content env filename c hopen hsize
  exact ⟨⟨c ++ [0], ht, by simp, by simp, by simp, rfl⟩, ⟨c, hr, rfl, rfl⟩⟩

/-- C10, at the empty file and at a file of two characters: the raw buffer is
the content, the terminated buffer is the content and one 0. -/
theorem getFileAsBuffer_returns_content_witness :
    getFileAsBuffer (FileEnv.withFile "/data/" 0 [] 16 (by decide)) "empty.vfp" false = .ok [] ∧
    getFileAsBuffer (FileEnv.withFile "/data/" 0 [] 16 (by decide)) "empty.vfp" true = .ok [0] ∧
    getFileAsBuffer (FileEnv.withFile "/data/" 2 [118, 59] 16 (by decide)) "a.vfp" false =
      .ok [118, 59] ∧
    getFileAsBuffer (FileEnv.withFile "/data/" 2 [118, 59] 16 (by decide)) "a.vs" true =
      .ok [118, 59, 0] := by
  obtain ⟨⟨b1, h1, -, -, -, e1⟩, ⟨b2, h2, -, e2⟩⟩ := getFileAsBuffer_returns_content
    (FileEnv.withFile "/data/" 0 [] 16 (by decide)) "empty.vfp" [] rfl rfl
  obtain ⟨⟨b3, h3, -, -, -, e3⟩, -⟩ := getFileAsBuffer_returns_content
    (FileEnv.withFile "/data/" 2 [118, 59] 16 (by decide)) "a.vs" [118, 59] rfl rfl
  obtain ⟨-, ⟨b4, h4, -, e4⟩⟩ := getFileAsBuffer_returns_content
    (FileEnv.withFile "/data/" 2 [118, 59] 16 (by decide)) "a.vfp" [118, 59] rfl rfl
  subst e1 e2 e3 e4
  exact ⟨h2, h1, h4, h3⟩

/-! ## Compiling and linking -/

theorem front_append_singleton (c : List Nat) (z : Nat) : front (c ++ [z]) = .ok (c ++ [z]) := by
  cases c <;> rfl

theorem front_of_ne_nil {c : List Nat} (h : c ≠ []) : front c = .ok c := by
  cases c with
  | nil => exact absurd rfl h
  | cons a l => rfl

/-- For two open files whose reported sizes are the lengths of their
contents, and a debugging helper that returns, `createGLSLProgram` is the
three status checks in their order followed by the return of the program
handle. -/
theorem createGLSLProgram_eq (env : FileEnv) (gl : GLDriver) (vFile fFile : String)
    (cv cf : List Nat)
    (hvopen : env.fileData (getBuiltInGLProgramPath env vFile) = some cv)
    (hvsize : env.getFileSize (getBuiltInGLProgramPath env vFile) = cv.length)
    (_hvfit : cv.length + 1 < SIZE_RANGE)
    (hfopen : env.fileData (getBuiltInGLProgramPath env fFile) = some cf)
    (hfsize : env.getFileSize (getBuiltInGLProgramPath env fFile) = cf.length)
    (_hffit : cf.length + 1 < SIZE_RANGE)
    (hcheck : ∀ cp, gl.assertNoGlErrors cp = .ok ()) :
    createGLSLProgram env gl vFile fFile =
      (assertShaderCompiled gl (gl.glCreateShader GL_VERTEX_SHADER) (cString (cv ++ [0]))).bind
        fun _ =>
      (assertShaderCompiled gl (gl.glCreateShader GL_FRAGMENT_SHADER) (cString (cf ++ [0]))).bind
        fun _ =>
      (assertProgramLinked gl gl.glCreateProgram
        [(gl.glCreateShader GL_VERTEX_SHADER, cString (cv ++ [0])),
         (gl.glCreateShader GL_FRAGMENT_SHADER, cString (cf ++ [0]))]).bind
        fun _ => .ok gl.glCreateProgram := by
  have hv := (getFileAsBuffer_content env vFile cv hvopen hvsize).1
  have hf := (getFileAsBuffer_content env fFile cf hfopen hfsize).1
  simp only [createGLSLProgram, hv, hf, front_append_singleton, hcheck, bind, Except.bind, pure,
    Except.pure]

/-- C11: for two source files that can be opened (reported sizes equal to
the lengths of their contents) and a debugging helper that returns,
`createGLSLProgram` returns, and then the handle from `glCreateProgram`,
exactly when the compile status of the vertex shader, the compile status of
the fragment shader and the link status are all `GL_TRUE`. Otherwise it
throws a `std::runtime_error` for the first failing step, whose message ends
with the info log of the shader (compile failure) or of the program (link
failure) as the driver delivered it. -/
theorem createGLSLProgram_status (env : FileEnv) (gl : GLDriver) (vFile fFile : String)
    (cv cf : List Nat)
    (hvopen : env.fileData (getBuiltInGLProgramPath env vFile) = some cv)
    (hvsize : env.getFileSize (getBuiltInGLProgramPath env vFile) = cv.length)
    (hvfit : cv.length + 1 < SIZE_RANGE)
    (hfopen : env.fileData (getBuiltInGLProgramPath env fFile) = some cf)
    (hfsize : env.getFileSize (getBuiltInGLProgramPath env fFile) = cf.length)
    (hffit : cf.length + 1 < SIZE_RANGE)
    (hcheck : ∀ cp, gl.assertNoGlErrors cp = .ok ()) :
    ((∃ handle, createGLSLProgram env gl vFile fFile = .ok handle) ↔
      gl.compileStatus (gl.glCreateShader GL_VERTEX_SHADER) (cString (cv ++ [0])) = GL_TRUE ∧
      gl.compileStatus (gl.glCreateShader GL_FRAGMENT_SHADER) (cString (cf ++ [0])) = GL_TRUE ∧
      gl.linkStatus gl.glCreateProgram
        [(gl.glCreateShader GL_VERTEX_SHADER, cString (cv ++ [0])),
        (gl.glCreateShader GL_FRAGMENT_SHADER, cString (cf ++ [0]))] = GL_TRUE) ∧
    (∀ handle, createGLSLProgram env gl vFile fFile = .ok handle →
      handle = gl.glCreateProgram) ∧
    (gl.compileStatus (gl.glCreateShader GL_VERTEX_SHADER) (cString (cv ++ [0])) ≠ GL_TRUE →
      createGLSLProgram env gl vFile fFile = .error (.runtime_error
        ("Failed to compile GLSL shader:\n" ++
          gl.glGetShaderInfoLog (gl.glCreateShader GL_VERTEX_SHADER) (cString (cv ++ [0]))
            (gl.shaderInfoLogLength (gl.glCreateShader GL_VERTEX_SHADER) (cString (cv ++ [0])) + 1)))) ∧
    (gl.compileStatus (gl.glCreateShader GL_VERTEX_SHADER) (cString (cv ++ [0])) = GL_TRUE →
      gl.compileStatus (gl.glCreateShader GL_FRAGMENT_SHADER) (cString (cf ++ [0])) ≠ GL_TRUE →
      createGLSLProgram env gl vFile fFile = .error (.runtime_error
        ("Failed to compile GLSL shader:\n" ++
          gl.glGetShaderInfoLog (gl.glCreateShader GL_FRAGMENT_SHADER) (cString (cf ++ [0]))
            (gl.shaderInfoLogLength (gl.glCreateShader GL_FRAGMENT_SHADER) (cString (cf ++ [0])) + 1)))) ∧
    (gl.compileStatus (gl.glCreateShader GL_VERTEX_SHADER) (cString (cv ++ [0])) = GL_TRUE →
      gl.compileStatus (gl.glCreateShader GL_FRAGMENT_SHADER) (cString (cf ++ [0])) = GL_TRUE →
      gl.linkStatus gl.glCreateProgram
        [(gl.glCreateShader GL_VERTEX_SHADER, cString (cv ++ [0])),
        (gl.glCreateShader GL_FRAGMENT_SHADER, cString (cf ++ [0]))] ≠ GL_TRUE →
      createGLSLProgram env gl vFile fFile = .error (.runtime_error
        ("Failed to construct GLSL program:\n" ++
          gl.glGetProgramInfoLog gl.glCreateProgram
            [(gl.glCreateShader GL_VERTEX_SHADER, cString (cv ++ [0])),
        (gl.glCreateShader GL_FRAGMENT_SHADER, cString (cf ++ [0]))]
            (gl.programInfoLogLength gl.glCreateProgram
              [(gl.glCreateShader GL_VERTEX_SHADER, cString (cv ++ [0])),
        (gl.glCreateShader GL_FRAGMENT_SHADER, cString (cf ++ [0]))] + 1)))) := by
  rw [createGLSLProgram_eq env gl vFile fFile cv cf hvopen hvsize hvfit hfopen hfsize hffit hcheck]
  by_cases h1 : gl.compileStatus (gl.glCreateShader GL_VERTEX_SHADER) (cString (cv ++ [0])) = GL_TRUE
  · by_cases h2 : gl.compileStatus (gl.glCreateShader GL_FRAGMENT_SHADER) (cString (cf ++ [0])) = GL_TRUE
    · by_cases h3 : gl.linkStatus gl.glCreateProgram
        [(gl.glCreateShader GL_VERTEX_SHADER, cString (cv ++ [0])),
        (gl.glCreateShader GL_FRAGMENT_SHADER, cString (cf ++ [0]))] = GL_TRUE
      · simp [assertShaderCompiled, assertProgramLinked, Except.bind, h1, h2, h3]
      · simp [assertShaderCompiled, assertProgramLinked, getProgramInfoLog, Except.bind,
          h1, h2, h3]
    · simp [assertShaderCompiled, Except.bind, h1, h2]
  · simp [assertShaderCompiled, Except.bind, h1]

/-- C11, at a vertex shader that does not compile: the error carries the
shader info log. -/
theorem createGLSLProgram_status_witness :
    createGLSLProgram (FileEnv.withFile "/data/" 2 [118, 59] 16 (by decide))
      ⟨7, fun t => t, fun _ _ => 0, fun _ _ => 4, fun _ _ _ => "bad", fun _ _ => 1,
        fun _ _ => 0, fun _ _ _ => "", fun _ => .ok (), 9, fun _ n _ => ⟨0, n, ""⟩⟩
      "a.vs" "a.fs" = .error (.runtime_error "Failed to compile GLSL shader:\nbad") :=
  (createGLSLProgram_status (FileEnv.withFile "/data/" 2 [118, 59] 16 (by decide))
      ⟨7, fun t => t, fun _ _ => 0, fun _ _ => 4, fun _ _ _ => "bad", fun _ _ => 1,
        fun _ _ => 0, fun _ _ _ => "", fun _ => .ok (), 9, fun _ n _ => ⟨0, n, ""⟩⟩
      "a.vs" "a.fs" [118, 59] [118, 59] rfl rfl (by decide) rfl rfl (by decide)
      (fun _ => rfl)).2.2.1 (by decide)

theorem ok_bind {α β : Type} (a : α) (f : α → Except Abort β) :
    (Except.ok a >>= f) = f a := rfl

theorem readCount_front (c : List Nat) :
    readCount (front c) (GLsizei c.length) = .ok (c.take (GLsizei c.length).toNat) := by
  cases c with
  | nil => rfl
  | cons a l =>
    unfold readCount
    split
    · rename_i h
      rw [Int.toNat_of_nonpos h]
      rfl
    · rfl

/-- For an open file whose reported size is the length of its content, and a
debugging helper that returns, `createARBProgram` submits the characters that
the length given to the driver covers, returns the id from
`glGenProgramsARB` whatever `glGetError()` reports, and writes one line to the
error console exactly when that is `GL_INVALID_OPERATION`. -/
theorem createARBProgram_eq (env : FileEnv) (gl : GLDriver) (filename : String)
    (type : Nat) (c : List Nat)
    (hopen : env.fileData (getBuiltInGLProgramPath env filename) = some c)
    (hsize : env.getFileSize (getBuiltInGLProgramPath env filename) = c.length)
    (hcheck : ∀ cp, gl.assertNoGlErrors cp = .ok ()) :
    createARBProgram env gl filename type = .ok (gl.glGenProgramsARB,
      if GL_INVALID_OPERATION =
          (gl.glProgramStringARB type (GLsizei c.length)
            (c.take (GLsizei c.length).toNat)).glGetError then
        ["GL program error: " ++ (filename ++ "(" ++
            toString (gl.glProgramStringARB type (GLsizei c.length)
              (c.take (GLsizei c.length).toNat)).errPos ++ "): \n\n")
          ++ (gl.glProgramStringARB type (GLsizei c.length)
              (c.take (GLsizei c.length).toNat)).errString]
      else []) := by
  have hb := (getFileAsBuffer_content env filename c hopen hsize).2
  unfold createARBProgram
  rw [hb, ok_bind, hcheck, ok_bind, readCount_front, ok_bind]
  by_cases h : GL_INVALID_OPERATION =
      (gl.glProgramStringARB type (GLsizei c.length) (c.take (GLsizei c.length).toNat)).glGetError
  · rw [if_pos h, if_pos h]
    rfl
  · rw [if_neg h, if_neg h]
    rfl

/-- C12: for every ARB program file that can be opened (reported size equal to
the length of its content `c`, the empty file included) and a debugging helper
that returns, `createARBProgram` does not raise: it returns the id from
`glGenProgramsARB` whether or not `glGetError()` is `GL_INVALID_OPERATION`
after the program string has been submitted, and it logs exactly one line,
`"GL program error: " + filename + "(" + position + "): \n\n" + error string`,
when it is, and nothing when it is not. -/
theorem createARBProgram_logs_and_returns (env : FileEnv) (gl : GLDriver) (filename : String)
    (type : Nat) (c : List Nat)
    (hopen : env.fileData (getBuiltInGLProgramPath env filename) = some c)
    (hsize : env.getFileSize (getBuiltInGLProgramPath env filename) = c.length)
    (hcheck : ∀ cp, gl.assertNoGlErrors cp = .ok ()) :
    (∃ log, createARBProgram env gl filename type = .ok (gl.glGenProgramsARB, log)) ∧
    ((gl.glProgramStringARB type (GLsizei c.length)
        (c.take (GLsizei c.length).toNat)).glGetError = GL_INVALID_OPERATION →
      createARBProgram env gl filename type = .ok (gl.glGenProgramsARB,
        ["GL program error: " ++ (filename ++ "(" ++
            toString (gl.glProgramStringARB type (GLsizei c.length)
              (c.take (GLsizei c.length).toNat)).errPos ++ "): \n\n")
          ++ (gl.glProgramStringARB type (GLsizei c.length)
              (c.take (GLsizei c.length).toNat)).errString])) ∧
    ((gl.glProgramStringARB type (GLsizei c.length)
        (c.take (GLsizei c.length).toNat)).glGetError ≠ GL_INVALID_OPERATION →
      createARBProgram env gl filename type = .ok (gl.glGenProgramsARB, [])) := by
  have h := createARBProgram_eq env gl filename type c hopen hsize hcheck
  refine ⟨⟨_, h⟩, ?_, ?_⟩
  · intro he
    rw [h, if_pos he.symm]
  · intro he
    rw [h, if_neg (fun e => he e.symm)]

/-- C12, at the empty file and at a file of one character, with a driver that
reports `GL_INVALID_OPERATION`: the annotated error is logged and the
generated id 9 is returned. -/
theorem createARBProgram_logs_and_returns_witness :
    createARBProgram (FileEnv.withFile "/data/" 0 [] 16 (by decide))
      ⟨7, fun t => t, fun _ _ => 1, fun _ _ => 0, fun _ _ _ => "", fun _ _ => 1,
        fun _ _ => 0, fun _ _ _ => "", fun _ => .ok (), 9, fun _ _ _ => ⟨0x0502, 0, "bad"⟩⟩
      "empty.vfp" 0x8620 =
      .ok (9, ["GL program error: empty.vfp(0): \n\nbad"]) ∧
    createARBProgram (FileEnv.withFile "/data/" 1 [33] 16 (by decide))
      ⟨7, fun t => t, fun _ _ => 1, fun _ _ => 0, fun _ _ _ => "", fun _ _ => 1,
        fun _ _ => 0, fun _ _ _ => "", fun _ => .ok (), 9, fun _ _ _ => ⟨0x0502, 0, "bad"⟩⟩
      "one.vfp" 0x8620 =
      .ok (9, ["GL program error: one.vfp(0): \n\nbad"]) :=
  ⟨(createARBProgram_logs_and_returns (FileEnv.withFile "/data/" 0 [] 16 (by decide))
      ⟨7, fun t => t, fun _ _ => 1, fun _ _ => 0, fun _ _ _ => "", fun _ _ => 1,
        fun _ _ => 0, fun _ _ _ => "", fun _ => .ok (), 9, fun _ _ _ => ⟨0x0502, 0, "bad"⟩⟩
      "empty.vfp" 0x8620 [] rfl rfl (fun _ => rfl)).2.1 rfl,
   (createARBProgram_logs_and_returns (FileEnv.withFile "/data/" 1 [33] 16 (by decide))
      ⟨7, fun t => t, fun _ _ => 1, fun _ _ => 0, fun _ _ _ => "", fun _ _ => 1,
        fun _ _ => 0, fun _ _ _ => "", fun _ => .ok (), 9, fun _ _ _ => ⟨0x0502, 0, "bad"⟩⟩
      "one.vfp" 0x8620 [33] rfl rfl (fun _ => rfl)).2.1 rfl⟩

/-! ## Sequences of calls -/

theorem perform_getBuiltInProgram (s : GLProgramFactory) (name : String) :
    perform s (.getBuiltInProgram name) = s := by
  show (match s.getBuiltInProgram name with
    | .ok _ => s
    | .error _ => s) = s
  cases s.getBuiltInProgram name <;> rfl

theorem Reachable.perform {s : GLProgramFactory} (h : Reachable s) (c : Call) :
    Reachable (perform s c) := by
  cases c with
  | setUsingGLSL b => exact h.setUsingGLSL b
  | getBuiltInProgram name => rw [perform_getBuiltInProgram]; exact h
  | getProgram v f => exact h.getProgram v f
  | realise => exact h.realise
  | unrealise => exact h.unrealise

theorem Reachable.foldl_perform {s : GLProgramFactory} (h : Reachable s) (calls : List Call) :
    Reachable (calls.foldl GLProgramFactory.perform s) := by
  induction calls generalizing s with
  | nil => exact h
  | cons c calls ih => exact ih (h.perform c)

theorem reachable_iff_performAll (s : GLProgramFactory) :
    Reachable s ↔ ∃ calls, s = performAll calls := by
  constructor
  · intro h
    induction h with
    | new => exact ⟨[], rfl⟩
    | setUsingGLSL b _ ih =>
      obtain ⟨calls, rfl⟩ := ih
      exact ⟨calls ++ [.setUsingGLSL b], by simp [performAll, perform]⟩
    | getProgram v f _ ih =>
      obtain ⟨calls, rfl⟩ := ih
      exact ⟨calls ++ [.getProgram v f], by simp [performAll, perform]⟩
    | realise _ ih =>
      obtain ⟨calls, rfl⟩ := ih
      exact ⟨calls ++ [.realise], by simp [performAll, perform]⟩
    | unrealise _ ih =>
      obtain ⟨calls, rfl⟩ := ih
      exact ⟨calls ++ [.unrealise], by simp [performAll, perform]⟩
  · rintro ⟨calls, rfl⟩
    exact Reachable.new.foldl_perform calls

theorem builtInVariant_new : BuiltInVariant GLProgramFactory.new false :=
  ⟨1, 0, by decide, by decide, by decide⟩

theorem builtInVariant_setUsingGLSL {s : GLProgramFactory} (h : WellFormed s) (b : Bool) :
    BuiltInVariant (s.setUsingGLSL b) b := by
  have hp := getElem?_append_pair s.heap ⟨depthFillClass b, []⟩ ⟨bumpMapClass b, []⟩
  refine ⟨s.heap.length + 1, s.heap.length, setUsingGLSL_builtIn_of_keys s b h.builtIn_keys, ?_, ?_⟩
  · rw [deref, setUsingGLSL_heap, hp.2]; rfl
  · rw [deref, setUsingGLSL_heap, hp.1]; rfl

theorem deref_getProgram {s : GLProgramFactory} (v f : String) {p : Nat}
    (hp : p < s.heap.length) : (s.getProgram v f).2.deref p = s.deref p := by
  cases hfind : StdMap.find (v, f) s._gamePrograms with
  | some q => rw [getProgram_hit hfind]
  | none =>
    rw [getProgram_miss hfind]
    simp [deref, List.getElem?_append_left hp]

theorem builtInView_getProgram {s : GLProgramFactory} (h : WellFormed s) (v f : String) :
    builtInView (s.getProgram v f).2 = builtInView s := by
  unfold builtInView
  rw [getProgram_builtInPrograms]
  apply List.map_congr_left
  rintro ⟨k, p⟩ hkp
  have hlt : p < s.heap.length :=
    h.ptrs_valid p (List.mem_append_left _ (List.mem_map.2 ⟨(k, p), hkp, rfl⟩))
  simp [deref_getProgram v f hlt]

theorem builtInVariant_perform {s : GLProgramFactory} (h : WellFormed s) {b : Bool}
    (hv : BuiltInVariant s b) (c : Call) : BuiltInVariant (perform s c) (lastFlag b [c]) := by
  cases c with
  | setUsingGLSL b2 => exact builtInVariant_setUsingGLSL h b2
  | getBuiltInProgram name => rw [perform_getBuiltInProgram]; exact hv
  | getProgram v f =>
    obtain ⟨pb, pd, hm, hb, hd⟩ := hv
    have hpb : pb < s.heap.length := h.ptrs_valid pb (by simp [hm, StdMap.values])
    have hpd : pd < s.heap.length := h.ptrs_valid pd (by simp [hm, StdMap.values])
    refine ⟨pb, pd, ?_, ?_, ?_⟩
    · show (s.getProgram v f).2._builtInPrograms = _
      rw [getProgram_builtInPrograms, hm]
    · show ((s.getProgram v f).2.deref pb).map GLProgram.cls = _
      rw [deref_getProgram v f hpb]; exact hb
    · show ((s.getProgram v f).2.deref pd).map GLProgram.cls = _
      rw [deref_getProgram v f hpd]; exact hd
  | realise =>
    obtain ⟨pb, pd, hm, hb, hd⟩ := hv
    refine ⟨pb, pd, hm, ?_, ?_⟩
    · show (s.realise.heap[pb]?).map GLProgram.cls = _
      rw [realise_heap, cls_calls]; exact hb
    · show (s.realise.heap[pd]?).map GLProgram.cls = _
      rw [realise_heap, cls_calls]; exact hd
  | unrealise =>
    obtain ⟨pb, pd, hm, hb, hd⟩ := hv
    refine ⟨pb, pd, hm, ?_, ?_⟩
    · show (s.unrealise.heap[pb]?).map GLProgram.cls = _
      rw [unrealise_heap, cls_calls]; exact hb
    · show (s.unrealise.heap[pd]?).map GLProgram.cls = _
      rw [unrealise_heap, cls_calls]; exact hd

theorem builtInVariant_foldl {s : GLProgramFactory} (h : Reachable s) {b : Bool}
    (hv : BuiltInVariant s b) (calls : List Call) :
    BuiltInVariant (calls.foldl GLProgramFactory.perform s) (lastFlag b calls) := by
  induction calls generalizing s b with
  | nil => exact hv
  | cons c calls ih =>
    have := ih (h.perform c) (builtInVariant_perform h.wellFormed hv c)
    simpa [lastFlag] using this

/-- C17: after any sequence of `setUsingGLSL`, `getBuiltInProgram`,
`getProgram`, `realise` and `unrealise` calls on the constructed factory, the
keys of the built-in map are exactly "bumpMap" and "depthFill", both entries
refer to objects of the variant chosen by the last `setUsingGLSL` flag (ARB
when there was none), and `getBuiltInProgram` returns for both names. -/
theorem builtIn_invariant (calls : List Call) :
    StdMap.keys (performAll calls)._builtInPrograms = ["bumpMap", "depthFill"] ∧
    BuiltInVariant (performAll calls) (lastFlag false calls) ∧
    (∃ p, (performAll calls).getBuiltInProgram "depthFill" = .ok p ∧
      ((performAll calls).deref p).map GLProgram.cls =
        some (if lastFlag false calls then .GLSLDepthFillProgram else .ARBDepthFillProgram)) ∧
    (∃ p, (performAll calls).getBuiltInProgram "bumpMap" = .ok p ∧
      ((performAll calls).deref p).map GLProgram.cls =
        some (if lastFlag false calls then .GLSLBumpProgram else .ARBBumpProgram)) := by
  have hr : Reachable (performAll calls) := Reachable.new.foldl_perform calls
  have hv : BuiltInVariant (performAll calls) (lastFlag false calls) :=
    builtInVariant_foldl Reachable.new builtInVariant_new calls
  refine ⟨hr.wellFormed.builtIn_keys, hv, ?_, ?_⟩
  · obtain ⟨pb, pd, hm, _, hd⟩ := hv
    exact ⟨pd, by simp [getBuiltInProgram, hm, StdMap.find], by simpa [depthFillClass] using hd⟩
  · obtain ⟨pb, pd, hm, hb, _⟩ := hv
    exact ⟨pb, by simp [getBuiltInProgram, hm, StdMap.find], by simpa [bumpMapClass] using hb⟩

/-! ## Opening program files -/

/-- A file that cannot be opened: `getFileAsBuffer` throws a
`std::runtime_error` whose message names the absolute path. -/
theorem getFileAsBuffer_not_open (env : FileEnv) (filename : String) (nullTerminated : Bool)
    (hopen : env.fileData (getBuiltInGLProgramPath env filename) = none) :
    getFileAsBuffer env filename nullTerminated = .error (.runtime_error
      ("GLProgramFactory::createARBProgram() failed to open file: " ++
        (env.runtimeDataPath ++ "gl/" ++ filename))) := by
  simp only [getFileAsBuffer, openAndAllocate, hopen]
  rfl

/-- A buffer size above `max_size()`: the constructor of the vector throws
`std::length_error`. -/
theorem getFileAsBuffer_length_error (env : FileEnv) (filename : String)
    (nullTerminated : Bool) (data : List Nat)
    (hopen : env.fileData (getBuiltInGLProgramPath env filename) = some data)
    (hmax : MAX_SIZE <
      bufSize (env.getFileSize (getBuiltInGLProgramPath env filename) % SIZE_RANGE)
        nullTerminated) :
    getFileAsBuffer env filename nullTerminated =
      .error (.length_error "cannot create std::vector larger than max_size()") := by
  simp only [getFileAsBuffer, openAndAllocate, hopen, newVector, if_pos hmax]

/-- A buffer size within `max_size()` that the memory does not hold: the
allocation throws `std::bad_alloc`. -/
theorem getFileAsBuffer_bad_alloc (env : FileEnv) (filename : String)
    (nullTerminated : Bool) (data : List Nat)
    (hopen : env.fileData (getBuiltInGLProgramPath env filename) = some data)
    (hmax : bufSize (env.getFileSize (getBuiltInGLProgramPath env filename) % SIZE_RANGE)
      nullTerminated ≤ MAX_SIZE)
    (hheap : env.heapSize <
      bufSize (env.getFileSize (getBuiltInGLProgramPath env filename) % SIZE_RANGE)
        nullTerminated) :
    getFileAsBuffer env filename nullTerminated = .error (.bad_alloc "std::bad_alloc") := by
  simp only [getFileAsBuffer, openAndAllocate, hopen, newVector, if_neg (Nat.not_lt.2 hmax),
    if_pos hheap]

/-- C18, refuted as stated: a file that can be opened, for which
`os::getFileSize` reports 2^64 - 1, read without terminator. The stream is
open, yet no buffer is returned: the constructor of the vector throws
`std::length_error`, whose message does not name the path. -/
theorem getFileAsBuffer_open_yet_raises :
    (FileEnv.withFile "/data/" (2 ^ 64 - 1) [33] 16 (by decide)).fileData
        (getBuiltInGLProgramPath (FileEnv.withFile "/data/" (2 ^ 64 - 1) [33] 16 (by decide))
          "big.vfp") = some [33] ∧
    getFileAsBuffer (FileEnv.withFile "/data/" (2 ^ 64 - 1) [33] 16 (by decide)) "big.vfp" false =
      .error (.length_error "cannot create std::vector larger than max_size()") ∧
    ¬ ∃ buffer,
      getFileAsBuffer (FileEnv.withFile "/data/" (2 ^ 64 - 1) [33] 16 (by decide)) "big.vfp"
        false = .ok buffer := by
  have h : getFileAsBuffer (FileEnv.withFile "/data/" (2 ^ 64 - 1) [33] 16 (by decide))
      "big.vfp" false =
      .error (.length_error "cannot create std::vector larger than max_size()") :=
    getFileAsBuffer_length_error _ "big.vfp" false [33] rfl (by decide)
  refine ⟨rfl, h, ?_⟩
  rintro ⟨buffer, hb⟩
  rw [h] at hb
  cases hb

/-- C18, amended: `getFileAsBuffer` throws a `std::runtime_error` exactly
when the file cannot be opened, and its message names the absolute path
(runtime data path + "gl/" + filename). When the file can be opened, it
returns a buffer of the buffer size (the reported file size, plus 1 with a
terminator, in `std::size_t`) without raising whenever a vector of that size
can be allocated, that is, the size is at most `max_size()` and the memory
holds it; when it cannot, the error of the allocation is raised:
`std::length_error` above `max_size()`, `std::bad_alloc` otherwise. -/
theorem getFileAsBuffer_raises_or_returns (env : FileEnv) (filename : String)
    (nullTerminated : Bool) :
    ((∃ what, getFileAsBuffer env filename nullTerminated = .error (.runtime_error what)) ↔
      env.fileData (getBuiltInGLProgramPath env filename) = none) ∧
    (env.fileData (getBuiltInGLProgramPath env filename) = none →
      getFileAsBuffer env filename nullTerminated = .error (.runtime_error
        ("GLProgramFactory::createARBProgram() failed to open file: " ++
          (env.runtimeDataPath ++ "gl/" ++ filename)))) ∧
    (∀ data, env.fileData (getBuiltInGLProgramPath env filename) = some data →
      (bufSize (env.getFileSize (getBuiltInGLProgramPath env filename) % SIZE_RANGE)
          nullTerminated ≤ MAX_SIZE →
        bufSize (env.getFileSize (getBuiltInGLProgramPath env filename) % SIZE_RANGE)
          nullTerminated ≤ env.heapSize →
        ∃ buffer, getFileAsBuffer env filename nullTerminated = .ok buffer ∧
          buffer.length =
            bufSize (env.getFileSize (getBuiltInGLProgramPath env filename) % SIZE_RANGE)
              nullTerminated) ∧
      (MAX_SIZE <
          bufSize (env.getFileSize (getBuiltInGLProgramPath env filename) % SIZE_RANGE)
            nullTerminated →
        getFileAsBuffer env filename nullTerminated =
          .error (.length_error "cannot create std::vector larger than max_size()")) ∧
      (bufSize (env.getFileSize (getBuiltInGLProgramPath env filename) % SIZE_RANGE)
          nullTerminated ≤ MAX_SIZE →
        env.heapSize <
          bufSize (env.getFileSize (getBuiltInGLProgramPath env filename) % SIZE_RANGE)
            nullTerminated →
        getFileAsBuffer env filename nullTerminated = .error (.bad_alloc "std::bad_alloc"))) := by
  have hlt : env.getFileSize (getBuiltInGLProgramPath env filename) % SIZE_RANGE < SIZE_RANGE :=
    Nat.mod_lt _ (by decide)
  have hsome : ∀ data, env.fileData (getBuiltInGLProgramPath env filename) = some data →
      (bufSize (env.getFileSize (getBuiltInGLProgramPath env filename) % SIZE_RANGE)
          nullTerminated ≤ MAX_SIZE →
        bufSize (env.getFileSize (getBuiltInGLProgramPath env filename) % SIZE_RANGE)
          nullTerminated ≤ env.heapSize →
        ∃ buffer, getFileAsBuffer env filename nullTerminated = .ok buffer ∧
          buffer.length =
            bufSize (env.getFileSize (getBuiltInGLProgramPath env filename) % SIZE_RANGE)
              nullTerminated) ∧
      (MAX_SIZE <
          bufSize (env.getFileSize (getBuiltInGLProgramPath env filename) % SIZE_RANGE)
            nullTerminated →
        getFileAsBuffer env filename nullTerminated =
          .error (.length_error "cannot create std::vector larger than max_size()")) ∧
      (bufSize (env.getFileSize (getBuiltInGLProgramPath env filename) % SIZE_RANGE)
          nullTerminated ≤ MAX_SIZE →
        env.heapSize <
          bufSize (env.getFileSize (getBuiltInGLProgramPath env filename) % SIZE_RANGE)
            nullTerminated →
        getFileAsBuffer env filename nullTerminated = .error (.bad_alloc "std::bad_alloc")) := by
    intro data hopen
    refine ⟨fun hmax hheap => ?_, getFileAsBuffer_length_error env filename nullTerminated data hopen,
      getFileAsBuffer_bad_alloc env filename nullTerminated data hopen⟩
    refine ⟨_, getFileAsBuffer_of_allocated env filename nullTerminated data hopen hmax hheap, ?_⟩
    have hle := extracted_length_le_bufSize data nullTerminated hlt
    simp only [List.length_append, List.length_replicate]
    omega
  by_cases hopen : env.fileData (getBuiltInGLProgramPath env filename) = none
  · have h := getFileAsBuffer_not_open env filename nullTerminated hopen
    exact ⟨⟨fun _ => hopen, fun _ => ⟨_, h⟩⟩, fun _ => h, hsome⟩
  · refine ⟨⟨?_, fun h => absurd h hopen⟩, fun h => absurd h hopen, hsome⟩
    rintro ⟨what, h⟩
    cases hfd : env.fileData (getBuiltInGLProgramPath env filename) with
    | none => exact absurd hfd hopen
    | some data =>
      obtain ⟨hok, hlen, hbad⟩ := hsome data hfd
      by_cases hmax : MAX_SIZE <
          bufSize (env.getFileSize (getBuiltInGLProgramPath env filename) % SIZE_RANGE)
            nullTerminated
      · rw [hlen hmax] at h
        cases h
      · by_cases hheap : env.heapSize <
            bufSize (env.getFileSize (getBuiltInGLProgramPath env filename) % SIZE_RANGE)
              nullTerminated
        · rw [hbad (Nat.not_lt.1 hmax) hheap] at h
          cases h
        · obtain ⟨buffer, hb, -⟩ := hok (Nat.not_lt.1 hmax) (Nat.not_lt.1 hheap)
          rw [hb] at h
          cases h

/-- C18, amended, at three files: one that cannot be opened, an empty one read
without terminator, and one of two characters for which a size beyond the
memory is reported. -/
theorem getFileAsBuffer_raises_or_returns_witness :
    getFileAsBuffer (FileEnv.withoutFiles "/data/" 0 16) "missing.vfp" false =
      .error (.runtime_error
        "GLProgramFactory::createARBProgram() failed to open file: /data/gl/missing.vfp") ∧
    (∃ buffer, getFileAsBuffer (FileEnv.withFile "/data/" 0 [] 16 (by decide)) "empty.vfp" false =
      .ok buffer ∧ buffer.length = 0) ∧
    getFileAsBuffer (FileEnv.withFile "/data/" 4096 [118, 59] 16 (by decide)) "a.vs" true =
      .error (.bad_alloc "std::bad_alloc") :=
  ⟨(getFileAsBuffer_raises_or_returns (FileEnv.withoutFiles "/data/" 0 16) "missing.vfp"
      false).2.1 rfl,
   ((getFileAsBuffer_raises_or_returns (FileEnv.withFile "/data/" 0 [] 16 (by decide))
      "empty.vfp" false).2.2 [] rfl).1 (by decide) (by decide),
   ((getFileAsBuffer_raises_or_returns (FileEnv.withFile "/data/" 4096 [118, 59] 16 (by decide))
      "a.vs" true).2.2 [118, 59] rfl).2.2 (by decide) (by decide)⟩

/-! ## The first element of the buffer -/

theorem front_nil :
    front [] = .error (.undefined "std::vector<char>::front() on an empty vector") := rfl

/-- C19: for every file that can be opened and has the reported size 0, the
vector that `getFileAsBuffer` allocates when no terminator is asked for is
empty, and `front()` of it, taken for the read, has no first element to refer
to; the same empty buffer is what the call returns, so the `front()` that
`createARBProgram` takes of it has none either. With a terminator the buffer
of such a file holds one character; with a terminator and the reported size
2^64 - 1 the buffer size wraps to 0 and the vector is empty again. -/
theorem front_of_empty_buffer :
    (∀ (env : FileEnv) (filename : String) (data : List Nat),
      env.fileData (getBuiltInGLProgramPath env filename) = some data →
      env.getFileSize (getBuiltInGLProgramPath env filename) = 0 →
      openAndAllocate env filename false = .ok ⟨data, 0, []⟩ ∧
      front (OpenedFile.mk data 0 []).buffer =
        .error (.undefined "std::vector<char>::front() on an empty vector") ∧
      (∃ buffer, getFileAsBuffer env filename false = .ok buffer ∧ buffer = [] ∧
        front buffer = .error (.undefined "std::vector<char>::front() on an empty vector")) ∧
      getFileAsBuffer env filename true = .ok [0]) ∧
    (∀ (env : FileEnv) (filename : String) (data : List Nat),
      env.fileData (getBuiltInGLProgramPath env filename) = some data →
      env.getFileSize (getBuiltInGLProgramPath env filename) = 2 ^ 64 - 1 →
      openAndAllocate env filename true = .ok ⟨data, 2 ^ 64 - 1, []⟩ ∧
      (∃ buffer, getFileAsBuffer env filename true = .ok buffer ∧ buffer = [] ∧
        front buffer = .error (.undefined "std::vector<char>::front() on an empty vector"))) ∧
    front (List.replicate 0 0) =
      .error (.undefined "std::vector<char>::front() on an empty vector") := by
  refine ⟨?_, ?_, rfl⟩
  · intro env filename data hopen hsize
    have hheap : 1 ≤ env.heapSize := by
      have := (env.fits _ data hopen).2
      omega
    have h0 : (0 : Nat) % SIZE_RANGE = 0 := rfl
    have h1 : (0 + 1) % SIZE_RANGE = 1 := rfl
    refine ⟨?_, rfl, ⟨[], ?_, rfl, rfl⟩, ?_⟩
    · simp only [openAndAllocate, hopen, hsize, h0, bufSize, Bool.false_eq_true, if_false]
      rw [newVector_ok env (Nat.zero_le _) (Nat.zero_le _)]
      rfl
    · rw [getFileAsBuffer_of_allocated env filename false data hopen
        (by simp [hsize, h0, bufSize]) (by simp [hsize, h0, bufSize])]
      simp [hsize, h0, bufSize, extracted]
    · rw [getFileAsBuffer_of_allocated env filename true data hopen
        (by simp only [hsize, h0, bufSize, if_true, h1]; decide)
        (by simp only [hsize, h0, bufSize, if_true, h1]; exact hheap)]
      simp [hsize, h0, h1, bufSize, extracted]
  · intro env filename data hopen hsize
    have h0 : (2 ^ 64 - 1) % SIZE_RANGE = 2 ^ 64 - 1 := by decide
    have h1 : (2 ^ 64 - 1 + 1) % SIZE_RANGE = 0 := by decide
    have hb : bufSize (2 ^ 64 - 1) true = 0 := by
      simp only [bufSize, if_true, h1]
    have he : extracted data (2 ^ 64 - 1) = [] := by
      unfold extracted
      rw [if_pos (by decide)]
    refine ⟨?_, ⟨[], ?_, rfl, rfl⟩⟩
    · simp only [openAndAllocate, hopen, hsize, h0, hb]
      rw [newVector_ok env (Nat.zero_le _) (Nat.zero_le _)]
      rfl
    · rw [getFileAsBuffer_of_allocated env filename true data hopen
        (by simp only [hsize, h0, hb]; exact Nat.zero_le _)
        (by simp only [hsize, h0, hb]; exact Nat.zero_le _)]
      simp only [hsize, h0, hb, he]
      rfl

/-! ## Independence of the two maps -/

/-- C20: in every reachable factory state, `setUsingGLSL` leaves the
game-program cache (keys, pointers and objects) unchanged, `getProgram`
leaves the built-in map (keys, pointers and objects) unchanged, and
`getBuiltInProgram` leaves the whole factory unchanged, whether it returns a
program or throws for an unknown name. -/
theorem maps_independent {s : GLProgramFactory} (hs : Reachable s) :
    (∀ b, (s.setUsingGLSL b)._gamePrograms = s._gamePrograms ∧
      gameView (s.setUsingGLSL b) = gameView s) ∧
    (∀ v f, (s.getProgram v f).2._builtInPrograms = s._builtInPrograms ∧
      builtInView (s.getProgram v f).2 = builtInView s) ∧
    (∀ name, perform s (.getBuiltInProgram name) = s) ∧
    (∀ name p, s.getBuiltInProgram name = .ok p →
      (perform s (.getBuiltInProgram name))._builtInPrograms = s._builtInPrograms ∧
      (perform s (.getBuiltInProgram name))._gamePrograms = s._gamePrograms) ∧
    (∀ name e, s.getBuiltInProgram name = .error e →
      (perform s (.getBuiltInProgram name))._builtInPrograms = s._builtInPrograms ∧
      (perform s (.getBuiltInProgram name))._gamePrograms = s._gamePrograms) := by
  have hwf := hs.wellFormed
  refine ⟨fun b => ⟨setUsingGLSL_gamePrograms s b, gameView_setUsingGLSL hwf b⟩,
    fun v f => ⟨getProgram_builtInPrograms s v f, builtInView_getProgram hwf v f⟩,
    perform_getBuiltInProgram s, ?_, ?_⟩
  · intro name p _
    rw [perform_getBuiltInProgram]
    exact ⟨rfl, rfl⟩
  · intro name e _
    rw [perform_getBuiltInProgram]
    exact ⟨rfl, rfl⟩

/-- C20, at the constructed factory with one cached game program:
`setUsingGLSL(true)` leaves the cache as it is. -/
theorem maps_independent_witness :
    gameView ((GLProgramFactory.new.getProgram "v" "f").2.setUsingGLSL true) =
      gameView (GLProgramFactory.new.getProgram "v" "f").2 :=
  ((maps_independent (Reachable.new.getProgram "v" "f")).1 true).2

end GLProgramFactory

end render

/-! ## Facts about assignment in a std::map -/

namespace render

namespace StdMap

variable {K V : Type}

theorem find_replace_self [DecidableEq K] (k : K) (v : V) (m : StdMap K V) {v0 : V}
    (h : find k m = some v0) : find k (replace k v m) = some v := by
  induction m with
  | nil => simp [find] at h
  | cons e m ih =>
    obtain ⟨k1, v1⟩ := e
    by_cases hk : k1 = k
    · simp [replace, find, hk]
    · simp only [find, hk, if_false] at h
      simp [replace, find, hk, ih h]

theorem find_replace_ne [DecidableEq K] (k : K) (v : V) (m : StdMap K V) {k2 : K}
    (hne : k2 ≠ k) : find k2 (replace k v m) = find k2 m := by
  induction m with
  | nil => rfl
  | cons e m ih =>
    obtain ⟨k1, v1⟩ := e
    by_cases hk : k1 = k
    · have hk2 : ¬ k1 = k2 := fun e => hne (e.symm.trans hk)
      simp [replace, find, hk, hne.symm]
    · simp [replace, find, hk, ih]

theorem find_assign_self [DecidableEq K] [StdLess K] (k : K) (v : V) (m : StdMap K V) :
    find k (assign k v m) = some v := by
  unfold assign
  cases h : find k m with
  | none => exact find_place_self k v m h
  | some v0 => exact find_replace_self k v m h

theorem find_assign_ne [DecidableEq K] [StdLess K] (k : K) (v : V) (m : StdMap K V) {k2 : K}
    (hne : k2 ≠ k) : find k2 (assign k v m) = find k2 m := by
  unfold assign
  cases h : find k m with
  | none => exact find_place_ne k v m hne
  | some v0 => exact find_replace_ne k v m hne

theorem nodup_keys_assign [DecidableEq K] [StdLess K] (k : K) (v : V) (m : StdMap K V)
    (hn : (keys m).Nodup) : (keys (assign k v m)).Nodup := by
  unfold assign
  cases h : find k m with
  | none =>
    exact (keys_place_perm k v m).nodup_iff.2
      (List.nodup_cons.2 ⟨(find_eq_none_iff k m).1 h, hn⟩)
  | some v0 =>
    show (keys (replace k v m)).Nodup
    rw [keys_replace]
    exact hn

end StdMap

end render

/-! ## The shader library -/

namespace shaders

open render

namespace ShaderLibrary

theorem loadMaterialFiles_cons (lib : ShaderLibrary) (b : Block) (blocks : List Block) :
    lib.loadMaterialFiles (b :: blocks) = (lib.addBlock b).loadMaterialFiles blocks := rfl

theorem definitionsNamed_cons (name : String) (b : Block) (blocks : List Block) :
    definitionsNamed name (b :: blocks) =
      definitionsNamed name [b] ++ definitionsNamed name blocks := by
  cases b with
  | definition d =>
    by_cases hd : d.name = name <;> simp [definitionsNamed, List.filterMap_cons, hd]
  | malformed diagnostic => simp [definitionsNamed, List.filterMap_cons]

theorem mem_definitionsNamed {name : String} {blocks : List Block} {d : ShaderDefinition} :
    d ∈ definitionsNamed name blocks ↔ Block.definition d ∈ blocks ∧ d.name = name := by
  unfold definitionsNamed
  rw [List.mem_filterMap]
  constructor
  · rintro ⟨b, hb, hd⟩
    cases b with
    | definition d2 =>
      by_cases h : d2.name = name
      · simp only [h, if_true, Option.some.injEq] at hd
        subst hd
        exact ⟨hb, h⟩
      · simp [h] at hd
    | malformed diagnostic => simp at hd
  · rintro ⟨hb, hd⟩
    exact ⟨Block.definition d, hb, by simp [hd]⟩

theorem find_addBlock_definition (lib : ShaderLibrary) (d : ShaderDefinition) (name : String) :
    StdMap.find name (lib.addBlock (.definition d)).definitions =
      if d.name = name then some d else StdMap.find name lib.definitions := by
  by_cases hd : d.name = name
  · subst hd
    simp [addBlock, StdMap.find_assign_self]
  · have hne : name ≠ d.name := fun e => hd e.symm
    simp [addBlock, StdMap.find_assign_ne _ _ _ hne, hd]

theorem find_loadMaterialFiles (name : String) (blocks : List Block) (lib : ShaderLibrary) :
    StdMap.find name (lib.loadMaterialFiles blocks).definitions =
      ((definitionsNamed name blocks).getLast?).or (StdMap.find name lib.definitions) := by
  induction blocks generalizing lib with
  | nil => simp [loadMaterialFiles, definitionsNamed]
  | cons b blocks ih =>
    rw [loadMaterialFiles_cons, ih, definitionsNamed_cons, List.getLast?_append]
    cases hlast : (definitionsNamed name blocks).getLast? with
    | some d => simp
    | none =>
      cases b with
      | definition d =>
        rw [find_addBlock_definition]
        by_cases hd : d.name = name <;> simp [definitionsNamed, hd]
      | malformed diagnostic => simp [definitionsNamed, addBlock]

theorem nodup_keys_loadMaterialFiles (blocks : List Block) (lib : ShaderLibrary)
    (hn : (StdMap.keys lib.definitions).Nodup) :
    (StdMap.keys (lib.loadMaterialFiles blocks).definitions).Nodup := by
  induction blocks generalizing lib with
  | nil => exact hn
  | cons b blocks ih =>
    rw [loadMaterialFiles_cons]
    apply ih
    cases b with
    | definition d => exact StdMap.nodup_keys_assign _ _ _ hn
    | malformed diagnostic => exact hn

/-- The number of warnings for `name` plus one if `name` has an entry: each
definition of `name` adds one to this sum. -/
theorem warnings_addBlock (name : String) (lib : ShaderLibrary) (b : Block) :
    (lib.addBlock b).log.count (.overwritten name) +
        (if (StdMap.find name (lib.addBlock b).definitions).isSome then 1 else 0) =
      lib.log.count (.overwritten name) +
        (if (StdMap.find name lib.definitions).isSome then 1 else 0) +
        (definitionsNamed name [b]).length := by
  cases b with
  | malformed diagnostic => simp [addBlock, definitionsNamed]
  | definition d =>
    rw [find_addBlock_definition]
    by_cases hd : d.name = name
    · subst hd
      cases hf : StdMap.find d.name lib.definitions <;>
        simp [addBlock, definitionsNamed, hf]
    · have hne : ¬ name = d.name := fun e => hd e.symm
      cases hf : StdMap.find d.name lib.definitions <;>
        simp [addBlock, definitionsNamed, hf, hd, hne]

theorem warnings_loadMaterialFiles (name : String) (blocks : List Block) (lib : ShaderLibrary) :
    (lib.loadMaterialFiles blocks).log.count (.overwritten name) +
        (if (StdMap.find name (lib.loadMaterialFiles blocks).definitions).isSome then 1 else 0) =
      lib.log.count (.overwritten name) +
        (if (StdMap.find name lib.definitions).isSome then 1 else 0) +
        (definitionsNamed name blocks).length := by
  induction blocks generalizing lib with
  | nil => simp [loadMaterialFiles, definitionsNamed]
  | cons b blocks ih =>
    have hl := congrArg List.length (definitionsNamed_cons name b blocks)
    rw [List.length_append] at hl
    rw [loadMaterialFiles_cons, ih, warnings_addBlock]
    omega

/-- C13: after the material files have been loaded into an empty library,
`findShader` returns for the name of every loaded definition a shader whose
definition carries exactly that name and is one of the loaded definitions,
not the stub; for a name that no loaded definition carries it returns the
stub "not found" shader. -/
theorem findShader_loaded (blocks : List Block) :
    (∀ d, Block.definition d ∈ blocks →
      ((ShaderLibrary.empty.loadMaterialFiles blocks).findShader d.name).definition.name =
        d.name ∧
      Block.definition
        ((ShaderLibrary.empty.loadMaterialFiles blocks).findShader d.name).definition ∈ blocks ∧
      ((ShaderLibrary.empty.loadMaterialFiles blocks).findShader d.name).notFound = false) ∧
    (∀ name, (∀ d, Block.definition d ∈ blocks → d.name ≠ name) →
      (ShaderLibrary.empty.loadMaterialFiles blocks).findShader name = Shader.stub) := by
  have hfind : ∀ name, StdMap.find name (ShaderLibrary.empty.loadMaterialFiles blocks).definitions =
      (definitionsNamed name blocks).getLast? := by
    intro name
    rw [find_loadMaterialFiles]
    simp [empty, StdMap.find]
  constructor
  · intro d hd
    have hmem : d ∈ definitionsNamed d.name blocks := mem_definitionsNamed.2 ⟨hd, rfl⟩
    cases hlast : (definitionsNamed d.name blocks).getLast? with
    | none =>
      rw [List.getLast?_eq_none_iff] at hlast
      rw [hlast] at hmem
      cases hmem
    | some d2 =>
      have hd2 := mem_definitionsNamed.1 (List.mem_of_getLast?_eq_some hlast)
      simp only [findShader, hfind, hlast]
      exact ⟨hd2.2, hd2.1, trivial⟩
  · intro name hnone
    have hnil : definitionsNamed name blocks = [] := by
      apply List.eq_nil_iff_forall_not_mem.2
      intro d hd
      exact hnone d (mem_definitionsNamed.1 hd).1 (mem_definitionsNamed.1 hd).2
    simp [findShader, hfind, hnil]

/-- C15: after the material files have been loaded into an empty library,
the entry under a name is the last definition of that name that the scan
met; the keys are pairwise distinct, so a name that was defined has exactly
one entry; and the log holds one overwrite warning for each definition of
the name but the first. -/
theorem loadMaterialFiles_last_wins (blocks : List Block) (name : String) :
    StdMap.find name (ShaderLibrary.empty.loadMaterialFiles blocks).definitions =
      (definitionsNamed name blocks).getLast? ∧
    (StdMap.keys (ShaderLibrary.empty.loadMaterialFiles blocks).definitions).Nodup ∧
    (StdMap.keys (ShaderLibrary.empty.loadMaterialFiles blocks).definitions).count name =
      (if definitionsNamed name blocks = [] then 0 else 1) ∧
    (ShaderLibrary.empty.loadMaterialFiles blocks).log.count (.overwritten name) =
      (definitionsNamed name blocks).length - 1 := by
  have hfind : StdMap.find name (ShaderLibrary.empty.loadMaterialFiles blocks).definitions =
      (definitionsNamed name blocks).getLast? := by
    rw [find_loadMaterialFiles]
    simp [empty, StdMap.find]
  have hn : (StdMap.keys (ShaderLibrary.empty.loadMaterialFiles blocks).definitions).Nodup :=
    nodup_keys_loadMaterialFiles blocks _ (by simp [empty, StdMap.keys])
  have hw := warnings_loadMaterialFiles name blocks ShaderLibrary.empty
  have he : ShaderLibrary.empty.log.count (.overwritten name) = 0 := rfl
  have hd0 : StdMap.find name ShaderLibrary.empty.definitions = none := rfl
  rw [hfind, he, hd0] at hw
  refine ⟨hfind, hn, ?_, ?_⟩
  · by_cases hnil : definitionsNamed name blocks = []
    · have hnot : name ∉ StdMap.keys (ShaderLibrary.empty.loadMaterialFiles blocks).definitions :=
        (StdMap.find_eq_none_iff _ _).1 (by rw [hfind, hnil]; rfl)
      simp [hnil, List.count_eq_zero_of_not_mem hnot]
    · have hmem : name ∈ StdMap.keys (ShaderLibrary.empty.loadMaterialFiles blocks).definitions := by
        by_contra hnot
        have := (StdMap.find_eq_none_iff _ _).2 hnot
        rw [hfind, List.getLast?_eq_none_iff] at this
        exact hnil this
      simp [hnil, List.count_eq_one_of_mem hn hmem]
  · cases hl : definitionsNamed name blocks with
    | nil =>
      rw [hl] at hw
      simpa using hw
    | cons d ds =>
      rw [hl] at hw
      have hsome : ((d :: ds).getLast?).isSome = true := by
        rw [List.getLast?_cons]; rfl
      simp only [hsome, if_true, List.length_cons, Option.isSome_none, Bool.false_eq_true,
        if_false] at hw
      simp only [List.length_cons]
      omega

/-- C15, at the scenario of the shader "textures/wood" defined twice with
different stages: the second definition is the entry and one warning is
logged. -/
theorem loadMaterialFiles_last_wins_witness :
    StdMap.find "textures/wood" (ShaderLibrary.empty.loadMaterialFiles
      [.definition ⟨"textures/wood", ["a"], "", "", "", false, false⟩,
       .malformed "unexpected token",
       .definition ⟨"textures/wood", ["b"], "", "", "", false, false⟩]).definitions =
      some ⟨"textures/wood", ["b"], "", "", "", false, false⟩ ∧
    (ShaderLibrary.empty.loadMaterialFiles
      [.definition ⟨"textures/wood", ["a"], "", "", "", false, false⟩,
       .malformed "unexpected token",
       .definition ⟨"textures/wood", ["b"], "", "", "", false, false⟩]).log.count
        (.overwritten "textures/wood") = 1 :=
  ⟨(loadMaterialFiles_last_wins _ "textures/wood").1.trans (by decide),
   (loadMaterialFiles_last_wins _ "textures/wood").2.2.2.trans (by decide)⟩

end ShaderLibrary

/-! ## The texture manager -/

/-- C14: for every texture manager state, disk and path, a second
`getBinding` with the same path returns the same texture instance as the
first and leaves the manager as the first call left it: no texture object is
made, no cache entry is added and nothing is loaded from disk. -/
theorem getBinding_twice (disk : String → Option (List Nat)) (m : GLTextureManager)
    (path : String) :
    ((m.getBinding disk path).2.getBinding disk path).1 = (m.getBinding disk path).1 ∧
    ((m.getBinding disk path).2.getBinding disk path).2 = (m.getBinding disk path).2 ∧
    ((m.getBinding disk path).2.getBinding disk path).2.cache = (m.getBinding disk path).2.cache ∧
    ((m.getBinding disk path).2.getBinding disk path).2.loads = (m.getBinding disk path).2.loads ∧
    ((m.getBinding disk path).2.getBinding disk path).2.textures =
      (m.getBinding disk path).2.textures ∧
    StdMap.find path (m.getBinding disk path).2.cache = some (m.getBinding disk path).1 := by
  have hfind : StdMap.find path (m.getBinding disk path).2.cache =
      some (m.getBinding disk path).1 := by
    cases h : StdMap.find path m.cache with
    | some t => simp [GLTextureManager.getBinding, h]
    | none =>
      simp [GLTextureManager.getBinding, h, StdMap.insert, StdMap.find_place_self _ _ _ h]
  have hsecond : (m.getBinding disk path).2.getBinding disk path =
      ((m.getBinding disk path).1, (m.getBinding disk path).2) := by
    generalize m.getBinding disk path = r at hfind
    simp [GLTextureManager.getBinding, hfind]
  rw [hsecond]
  exact ⟨rfl, rfl, rfl, rfl, rfl, hfind⟩

end shaders

/-! ## The model exporter -/

namespace model

open render

namespace ModelExporterBase

variable {V : Type}

theorem offsetIndex_eq_add {index vertexCount : Nat} (h : index + vertexCount < UINT_RANGE) :
    offsetIndex index vertexCount = index + vertexCount := by
  unfold offsetIndex
  rw [Nat.mod_eq_of_lt (by omega : vertexCount < UINT_RANGE), Nat.mod_eq_of_lt h]

theorem offsetIndex_le (index vertexCount : Nat) :
    offsetIndex index vertexCount ≤ index + vertexCount := by
  unfold offsetIndex
  exact (Nat.mod_le _ _).trans (Nat.add_le_add_left (Nat.mod_le _ _) _)

/-- The loop of the indexed branch, started at a multiple of three: it ends
without reading past the end, and it has pushed one reversed triple for each
remaining complete triple of the index array. -/
theorem reverseWindings_spec (indices : List Nat) (vertexCount : Nat) (d : Nat) :
    ∀ (j : Nat) (acc : List Nat), indices.length / 3 - j = d →
      ∃ tail, reverseWindings indices (vertexCount % UINT_RANGE) (3 * j) acc = .ok (acc ++ tail) ∧
        tail.length = 3 * (indices.length / 3 - j) ∧
        (∀ x ∈ tail, ∃ y ∈ indices, x = offsetIndex y vertexCount) ∧
        ∀ k, k < indices.length / 3 - j → ∃ i0 i1 i2,
          indices[3 * (j + k)]? = some i0 ∧ indices[3 * (j + k) + 1]? = some i1 ∧
          indices[3 * (j + k) + 2]? = some i2 ∧
          tail[3 * k]? = some (offsetIndex i2 vertexCount) ∧
          tail[3 * k + 1]? = some (offsetIndex i1 vertexCount) ∧
          tail[3 * k + 2]? = some (offsetIndex i0 vertexCount) := by
  induction d with
  | zero =>
    intro j acc hd
    refine ⟨[], ?_, by simp [hd], by simp, fun k hk => by omega⟩
    rw [reverseWindings]
    have : ¬ 3 * j < indices.length - 2 := by omega
    simp [this]
  | succ d ih =>
    intro j acc hd
    have hlt : 3 * j + 2 < indices.length := by omega
    have hguard : 3 * j < indices.length - 2 := by omega
    obtain ⟨tail, hrun, hlen, hmem, hpos⟩ := ih (j + 1)
      (acc ++ [offsetIndex indices[3 * j + 2] vertexCount,
        offsetIndex indices[3 * j + 1] vertexCount,
        offsetIndex indices[3 * j] vertexCount]) (by omega)
    refine ⟨[offsetIndex indices[3 * j + 2] vertexCount,
        offsetIndex indices[3 * j + 1] vertexCount,
        offsetIndex indices[3 * j] vertexCount] ++ tail, ?_, ?_, ?_, ?_⟩
    · rw [reverseWindings]
      have h2 : indices[3 * j + 2]? = some indices[3 * j + 2] := List.getElem?_eq_getElem hlt
      have h1 : indices[3 * j + 1]? = some indices[3 * j + 1] :=
        List.getElem?_eq_getElem (by omega)
      have h0 : indices[3 * j + 0]? = some indices[3 * j] :=
        List.getElem?_eq_getElem (by omega)
      simp only [hguard, if_true, h2, h1, h0]
      have hstep : 3 * j + 3 = 3 * (j + 1) := by omega
      rw [hstep]
      simpa [offsetIndex] using hrun
    · simp only [List.length_append, List.length_cons, List.length_nil, hlen]
      omega
    · intro x hx
      rcases List.mem_append.1 hx with hx | hx
      · simp only [List.mem_cons, List.mem_nil_iff, or_false] at hx
        rcases hx with rfl | rfl | rfl
        · exact ⟨_, List.getElem_mem _, rfl⟩
        · exact ⟨_, List.getElem_mem _, rfl⟩
        · exact ⟨_, List.getElem_mem _, rfl⟩
      · exact hmem x hx
    · intro k hk
      cases k with
      | zero =>
        refine ⟨indices[3 * j], indices[3 * j + 1], indices[3 * j + 2], ?_, ?_, ?_, ?_, ?_, ?_⟩
        · exact List.getElem?_eq_getElem (by omega)
        · exact List.getElem?_eq_getElem (by omega)
        · exact List.getElem?_eq_getElem hlt
        · simp
        · simp
        · simp
      | succ k =>
        obtain ⟨i0, i1, i2, h0, h1, h2, t0, t1, t2⟩ := hpos k (by omega)
        have e : 3 * (j + (k + 1)) = 3 * (j + 1 + k) := by omega
        refine ⟨i0, i1, i2, by rw [e]; exact h0, by rw [e]; exact h1, by rw [e]; exact h2,
          ?_, ?_, ?_⟩
        · rw [List.getElem?_append_right (by simp)]
          simpa [show 3 * (k + 1) - 3 = 3 * k by omega] using t0
        · rw [List.getElem?_append_right (by simp; omega)]
          simpa [show 3 * (k + 1) + 1 - 3 = 3 * k + 1 by omega] using t1
        · rw [List.getElem?_append_right (by simp; omega)]
          simpa [show 3 * (k + 1) + 2 - 3 = 3 * k + 2 by omega] using t2

/-! ### The surface handed out by ensureSurface -/

theorem mem_replace {K W : Type} [DecidableEq K] {key k : K} {v x : W} {m : StdMap K W}
    (h : (k, x) ∈ StdMap.replace key v m) : (k, x) ∈ m ∨ (k = key ∧ x = v) := by
  induction m with
  | nil => cases h
  | cons e m ih =>
    obtain ⟨k1, v1⟩ := e
    unfold StdMap.replace at h
    split at h
    · rename_i hk
      rcases List.mem_cons.1 h with h | h
      · cases h
        exact Or.inr ⟨hk, rfl⟩
      · exact Or.inl (List.mem_cons_of_mem _ h)
    · rcases List.mem_cons.1 h with h | h
      · exact Or.inl (h ▸ List.mem_cons_self _ _)
      · rcases ih h with h | h
        · exact Or.inl (List.mem_cons_of_mem _ h)
        · exact Or.inr h

theorem replace_place {K W : Type} [DecidableEq K] [StdLess K] (k : K) (v0 v : W)
    (m : StdMap K W) (h : StdMap.find k m = none) :
    StdMap.replace k v (StdMap.place k v0 m) = StdMap.place k v m := by
  induction m with
  | nil => simp [StdMap.place, StdMap.replace]
  | cons e m ih =>
    obtain ⟨k1, v1⟩ := e
    by_cases hk : k1 = k
    · simp [StdMap.find, hk] at h
    · simp only [StdMap.find, hk, if_false] at h
      unfold StdMap.place
      split
      · simp [StdMap.replace]
      · simp [StdMap.replace, hk, ih h]

theorem ensureSurface_of_some {m : StdMap String (Surface V)} {name : String} {surf : Surface V}
    (h : StdMap.find name m = some surf) : ensureSurface m name = (m, surf) := by
  simp [ensureSurface, h]

theorem ensureSurface_of_none {m : StdMap String (Surface V)} {name : String}
    (h : StdMap.find name m = none) :
    ensureSurface m name = (StdMap.place name ⟨name, [], []⟩ m, ⟨name, [], []⟩) := by
  simp [ensureSurface, h, StdMap.insert, replace_place name _ _ m h]

theorem ensureSurface_snd (s : ModelExporterBase V) (name : String) :
    (ensureSurface s._surfaces name).2 = surfaceOrEmpty s name := by
  cases h : StdMap.find name s._surfaces with
  | some surf => simp [ensureSurface_of_some h, surfaceOrEmpty, h]
  | none => simp [ensureSurface_of_none h, surfaceOrEmpty, h]

theorem find_ensureSurface (m : StdMap String (Surface V)) (name : String) :
    StdMap.find name (ensureSurface m name).1 = some (ensureSurface m name).2 := by
  cases h : StdMap.find name m with
  | some surf => rw [ensureSurface_of_some h]; exact h
  | none =>
    rw [ensureSurface_of_none h]
    exact StdMap.find_place_self _ _ _ h

theorem find_ensureSurface_ne (m : StdMap String (Surface V)) {name k : String}
    (hne : k ≠ name) : StdMap.find k (ensureSurface m name).1 = StdMap.find k m := by
  cases h : StdMap.find name m with
  | some surf => rw [ensureSurface_of_some h]
  | none =>
    rw [ensureSurface_of_none h]
    exact StdMap.find_place_ne _ _ _ hne

theorem mem_ensureSurface {m : StdMap String (Surface V)} {name k : String} {x : Surface V}
    (hx : (k, x) ∈ (ensureSurface m name).1) :
    (k, x) ∈ m ∨ (k = name ∧ x = ⟨name, [], []⟩) := by
  cases h : StdMap.find name m with
  | some surf =>
    rw [ensureSurface_of_some h] at hx
    exact Or.inl hx
  | none =>
    rw [ensureSurface_of_none h] at hx
    rcases List.mem_cons.1 ((StdMap.place_perm _ _ _).mem_iff.1 hx) with hx | hx
    · cases hx
      exact Or.inr ⟨rfl, rfl⟩
    · exact Or.inl hx

/-- The indexed branch with at least three indices: the result of
`addSurface` in terms of the surface handed out by `ensureSurface`. -/
theorem addSurface_indexed (s : ModelExporterBase V) (defaultMaterial : String)
    (vertices : List V) (indices : List Nat) (localToWorld : V → V)
    (h3 : 3 ≤ indices.length) :
    ∃ tail,
      addSurface s (.indexed defaultMaterial vertices indices) localToWorld =
        .ok (⟨StdMap.replace defaultMaterial
          { materialName := (surfaceOrEmpty s defaultMaterial).materialName
            vertices := (surfaceOrEmpty s defaultMaterial).vertices ++ vertices
            indices := (surfaceOrEmpty s defaultMaterial).indices ++ tail }
          (ensureSurface s._surfaces defaultMaterial).1⟩, []) ∧
      tail.length = 3 * (indices.length / 3) ∧
      (∀ x ∈ tail, ∃ y ∈ indices,
        x = offsetIndex y (surfaceOrEmpty s defaultMaterial).vertices.length) ∧
      ∀ k, k < indices.length / 3 → ∃ i0 i1 i2,
        indices[3 * k]? = some i0 ∧ indices[3 * k + 1]? = some i1 ∧
        indices[3 * k + 2]? = some i2 ∧
        tail[3 * k]? = some (offsetIndex i2 (surfaceOrEmpty s defaultMaterial).vertices.length) ∧
        tail[3 * k + 1]? =
          some (offsetIndex i1 (surfaceOrEmpty s defaultMaterial).vertices.length) ∧
        tail[3 * k + 2]? =
          some (offsetIndex i0 (surfaceOrEmpty s defaultMaterial).vertices.length) := by
  obtain ⟨tail, hrun, hlen, hmem, hpos⟩ := reverseWindings_spec indices
    (surfaceOrEmpty s defaultMaterial).vertices.length (indices.length / 3) 0
    (surfaceOrEmpty s defaultMaterial).indices (by omega)
  refine ⟨tail, ?_, by simpa using hlen, hmem, ?_⟩
  · have hnot : ¬ indices.length < 3 := by omega
    simp only [addSurface, IModelSurface.getDefaultMaterial, ensureSurface_snd, hnot, if_false]
    simp only [Nat.mul_zero] at hrun
    rw [hrun]
  · intro k hk
    simpa using hpos k (by omega)

/-! ### Indexed surfaces -/

/-- C21, as stated, fails when an incoming index plus the vertex count
leaves the range of `unsigned int`: on a surface that holds three vertices,
the incoming index 4294967295 is stored as 2, not as 4294967295 + 3. -/
theorem appendsReversed_fails_on_wrap :
    ¬ AppendsReversedBy (fun index vertexCount => index + vertexCount)
      (⟨[("m", ⟨"m", [1, 2, 3], [0, 1, 2]⟩)]⟩ : ModelExporterBase Nat) "m" [4, 5, 6]
      [4294967295, 1, 2] id := by
  rintro ⟨after, appended, hrun, hfind, -, hpos⟩
  obtain ⟨i0, i1, i2, h0, -, -, -, -, t2⟩ := hpos 0 (by decide)
  have hval : addSurface (⟨[("m", ⟨"m", [1, 2, 3], [0, 1, 2]⟩)]⟩ : ModelExporterBase Nat)
      (.indexed "m" [4, 5, 6] [4294967295, 1, 2]) id =
      .ok (⟨[("m", ⟨"m", [1, 2, 3, 4, 5, 6], [0, 1, 2, 5, 4, 2]⟩)]⟩, []) := by
    simp [addSurface, ensureSurface, IModelSurface.getDefaultMaterial, StdMap.find,
      StdMap.replace, reverseWindings, UINT_RANGE]
  rw [hval] at hrun
  cases hrun
  simp [StdMap.find, surfaceOrEmpty] at hfind
  subst hfind
  simp at h0
  subst h0
  simp [surfaceOrEmpty, StdMap.find] at t2

/-- C21, amended: for every exporter state and every indexed surface with
`n >= 3` indices, `addSurface` returns without reading past the end of the
index array; the surface of the default material then holds its former
vertices followed by all incoming vertices in order, and its former indices
followed by exactly `3 * (n / 3)` new ones, the `k`-th triple being
incoming `[3k+2]`, `[3k+1]`, `[3k]`, each with the former vertex count added
in `unsigned int` arithmetic, which is the plain sum whenever that sum is
below `2^32`. -/
theorem addSurface_appends_reversed (s : ModelExporterBase V) (defaultMaterial : String)
    (vertices : List V) (indices : List Nat) (localToWorld : V → V)
    (h3 : 3 ≤ indices.length) :
    AppendsReversedBy offsetIndex s defaultMaterial vertices indices localToWorld ∧
    (∀ index vertexCount, index + vertexCount < 2 ^ 32 →
      offsetIndex index vertexCount = index + vertexCount) ∧
    ((∀ i ∈ indices, i + (surfaceOrEmpty s defaultMaterial).vertices.length < 2 ^ 32) →
      AppendsReversedBy (fun index vertexCount => index + vertexCount) s defaultMaterial
        vertices indices localToWorld) := by
  obtain ⟨tail, hrun, hlen, -, hpos⟩ :=
    addSurface_indexed s defaultMaterial vertices indices localToWorld h3
  have hfind : StdMap.find defaultMaterial
      (StdMap.replace defaultMaterial
        ({ materialName := (surfaceOrEmpty s defaultMaterial).materialName
           vertices := (surfaceOrEmpty s defaultMaterial).vertices ++ vertices
           indices := (surfaceOrEmpty s defaultMaterial).indices ++ tail } : Surface V)
        (ensureSurface s._surfaces defaultMaterial).1) = some _ :=
    StdMap.find_replace_self _ _ _ (find_ensureSurface _ _)
  refine ⟨⟨_, tail, hrun, hfind, hlen, hpos⟩, fun _ _ h => offsetIndex_eq_add h, ?_⟩
  intro hfit
  refine ⟨_, tail, hrun, hfind, hlen, ?_⟩
  intro k hk
  obtain ⟨i0, i1, i2, h0, h1, h2, t0, t1, t2⟩ := hpos k hk
  refine ⟨i0, i1, i2, h0, h1, h2, ?_, ?_, ?_⟩
  · rw [t0, offsetIndex_eq_add (hfit i2 (List.getElem?_mem h2))]
  · rw [t1, offsetIndex_eq_add (hfit i1 (List.getElem?_mem h1))]
  · rw [t2, offsetIndex_eq_add (hfit i0 (List.getElem?_mem h0))]

/-- C21, amended, at a surface of four vertices and seven indices added to an
exporter that holds three vertices under the same material: two triples are
stored reversed and offset by three, the seventh index is dropped. -/
theorem addSurface_appends_reversed_witness :
    AppendsReversedBy offsetIndex
      (⟨[("m", ⟨"m", [1, 2, 3], [0, 1, 2]⟩)]⟩ : ModelExporterBase Nat) "m" [4, 5, 6, 7]
      [0, 1, 2, 3, 2, 1, 0] id :=
  (addSurface_appends_reversed _ "m" [4, 5, 6, 7] [0, 1, 2, 3, 2, 1, 0] id (by decide)).1

/-! ### Rejected surfaces -/

/-- C22, as stated, fails when the default material has no surface yet:
`ensureSurface` runs before the index count is checked, so the rejected
surface leaves an empty entry under its material in the map. -/
theorem rejection_creates_entry :
    addSurface (⟨[]⟩ : ModelExporterBase Nat) (.indexed "m" [4, 5] [0, 1]) id =
      .ok (⟨[("m", ⟨"m", [], []⟩)]⟩, ["Rejecting model surface with less than 3 indices."]) ∧
    (⟨[("m", ⟨"m", [], []⟩)]⟩ : ModelExporterBase Nat)._surfaces ≠
      (⟨[]⟩ : ModelExporterBase Nat)._surfaces :=
  ⟨rfl, by decide⟩

/-- C22, amended: for every exporter state and every indexed surface with
fewer than three indices, `addSurface` returns after logging the rejection,
adds no vertex and no index, and leaves every existing surface entry as it
is; the map is unchanged when the default material has an entry, and
otherwise it gains exactly one entry, the empty surface of that material. -/
theorem addSurface_rejects (s : ModelExporterBase V) (defaultMaterial : String)
    (vertices : List V) (indices : List Nat) (localToWorld : V → V)
    (hlt : indices.length < 3) :
    ∃ after,
      addSurface s (.indexed defaultMaterial vertices indices) localToWorld =
        .ok (after, ["Rejecting model surface with less than 3 indices."]) ∧
      (∀ surf, StdMap.find defaultMaterial s._surfaces = some surf → after = s) ∧
      (StdMap.find defaultMaterial s._surfaces = none →
        List.Perm after._surfaces ((defaultMaterial, ⟨defaultMaterial, [], []⟩) :: s._surfaces) ∧
        after._surfaces.length = s._surfaces.length + 1) ∧
      (∀ k surf, StdMap.find k s._surfaces = some surf →
        StdMap.find k after._surfaces = some surf) ∧
      (∀ k, k ≠ defaultMaterial → StdMap.find k after._surfaces = StdMap.find k s._surfaces) ∧
      StdMap.find defaultMaterial after._surfaces = some (surfaceOrEmpty s defaultMaterial) := by
  refine ⟨⟨(ensureSurface s._surfaces defaultMaterial).1⟩, ?_, ?_, ?_, ?_, ?_, ?_⟩
  · simp [addSurface, IModelSurface.getDefaultMaterial, hlt]
  · intro surf h
    rw [ensureSurface_of_some h]
  · intro h
    rw [ensureSurface_of_none h]
    exact ⟨StdMap.place_perm _ _ _, StdMap.length_place _ _ _⟩
  · intro k surf h
    by_cases hk : k = defaultMaterial
    · subst hk
      show StdMap.find k (ensureSurface s._surfaces k).1 = some surf
      rw [ensureSurface_of_some h]
      exact h
    · show StdMap.find k (ensureSurface s._surfaces defaultMaterial).1 = some surf
      rw [find_ensureSurface_ne _ hk]
      exact h
  · intro k hk
    exact find_ensureSurface_ne _ hk
  · show StdMap.find defaultMaterial (ensureSurface s._surfaces defaultMaterial).1 = _
    rw [find_ensureSurface, ensureSurface_snd]

/-- C22, amended, at an exporter that already holds the material: the
rejected surface leaves the exporter as it is. -/
theorem addSurface_rejects_witness :
    ∃ after, addSurface (⟨[("m", ⟨"m", [1, 2, 3], [0, 1, 2]⟩)]⟩ : ModelExporterBase Nat)
        (.indexed "m" [4, 5] [0, 1]) id =
        .ok (after, ["Rejecting model surface with less than 3 indices."]) ∧
      StdMap.find "m" after._surfaces = some ⟨"m", [1, 2, 3], [0, 1, 2]⟩ :=
  (addSurface_rejects _ "m" [4, 5] [0, 1] id (by decide)).imp
    fun _ h => ⟨h.1, h.2.2.2.1 "m" _ (by decide)⟩

/-! ### The stored surfaces -/

theorem surfaceOk_pushTriangle {key : String} {surface : Surface V} (h : SurfaceOk key surface)
    (a b c : V) : SurfaceOk key (pushTriangle surface a b c) := by
  obtain ⟨hname, hdvd, hidx⟩ := h
  refine ⟨hname, ?_, ?_⟩
  · obtain ⟨q, hq⟩ := hdvd
    exact ⟨q + 1, by simp [pushTriangle, hq]; omega⟩
  · intro i hi
    have hmod : surface.vertices.length % UINT_RANGE ≤ surface.vertices.length := Nat.mod_le _ _
    have h1 : (surface.vertices.length % UINT_RANGE + 1) % UINT_RANGE ≤
        surface.vertices.length % UINT_RANGE + 1 := Nat.mod_le _ _
    have h2 : (surface.vertices.length % UINT_RANGE + 2) % UINT_RANGE ≤
        surface.vertices.length % UINT_RANGE + 2 := Nat.mod_le _ _
    simp only [pushTriangle, List.mem_append, List.mem_cons, List.mem_nil_iff, or_false,
      List.length_append, List.length_cons, List.length_nil] at hi ⊢
    rcases hi with hi | rfl | rfl | rfl
    · have := hidx i hi
      omega
    · omega
    · omega
    · omega

theorem pushTriangle_counts (surface : Surface V) (a b c : V) :
    (pushTriangle surface a b c).materialName = surface.materialName ∧
    (pushTriangle surface a b c).vertices.length = surface.vertices.length + 3 ∧
    (pushTriangle surface a b c).indices.length = surface.indices.length + 3 := by
  simp [pushTriangle]

theorem surfaceOk_foldl {α : Type} {key : String} (f : α → V × V × V) (items : List α)
    (surface : Surface V) (h : SurfaceOk key surface) :
    SurfaceOk key (items.foldl
      (fun surf item => pushTriangle surf (f item).1 (f item).2.1 (f item).2.2) surface) := by
  induction items generalizing surface with
  | nil => exact h
  | cons item items ih => exact ih _ (surfaceOk_pushTriangle h _ _ _)

theorem counts_foldl {α : Type} (f : α → V × V × V) (items : List α) (surface : Surface V) :
    (items.foldl (fun surf item => pushTriangle surf (f item).1 (f item).2.1 (f item).2.2)
        surface).materialName = surface.materialName ∧
    (items.foldl (fun surf item => pushTriangle surf (f item).1 (f item).2.1 (f item).2.2)
        surface).vertices.length = surface.vertices.length + 3 * items.length ∧
    (items.foldl (fun surf item => pushTriangle surf (f item).1 (f item).2.1 (f item).2.2)
        surface).indices.length = surface.indices.length + 3 * items.length := by
  induction items generalizing surface with
  | nil => simp
  | cons item items ih =>
    obtain ⟨h1, h2, h3⟩ := ih (pushTriangle surface (f item).1 (f item).2.1 (f item).2.2)
    obtain ⟨p1, p2, p3⟩ := pushTriangle_counts surface (f item).1 (f item).2.1 (f item).2.2
    simp only [List.foldl_cons, List.length_cons]
    refine ⟨h1.trans p1, ?_, ?_⟩
    · rw [h2, p2]; omega
    · rw [h3, p3]; omega

theorem surfaceOk_ensureSurface {m : StdMap String (Surface V)}
    (h : ∀ k x, (k, x) ∈ m → SurfaceOk k x) (name : String) :
    SurfaceOk name (ensureSurface m name).2 ∧
    ∀ k x, (k, x) ∈ (ensureSurface m name).1 → SurfaceOk k x := by
  have hempty : SurfaceOk name (⟨name, [], []⟩ : Surface V) :=
    ⟨rfl, ⟨0, rfl⟩, fun i hi => by cases hi⟩
  constructor
  · cases hf : StdMap.find name m with
    | some surf =>
      rw [ensureSurface_of_some hf]
      exact h _ _ (StdMap.mem_of_find_eq_some hf)
    | none =>
      rw [ensureSurface_of_none hf]
      exact hempty
  · intro k x hx
    rcases mem_ensureSurface hx with hx | ⟨rfl, rfl⟩
    · exact h k x hx
    · exact hempty

theorem surfaceOk_replace {m : StdMap String (Surface V)}
    (h : ∀ k x, (k, x) ∈ m → SurfaceOk k x) {key : String} {v : Surface V}
    (hv : SurfaceOk key v) :
    ∀ k x, (k, x) ∈ StdMap.replace key v m → SurfaceOk k x := by
  intro k x hx
  rcases mem_replace hx with hx | ⟨rfl, rfl⟩
  · exact h k x hx
  · exact hv

theorem addPolygons_eq (s : ModelExporterBase V) (materialName : String)
    (polys : List (ModelPolygon V)) (localToWorld : V → V) :
    s.addPolygons materialName polys localToWorld =
      ⟨StdMap.replace materialName
        (polys.foldl (fun surf poly => pushTriangle surf
          ((fun q : ModelPolygon V => (localToWorld q.a, localToWorld q.b, localToWorld q.c))
            poly).1
          ((fun q : ModelPolygon V => (localToWorld q.a, localToWorld q.b, localToWorld q.c))
            poly).2.1
          ((fun q : ModelPolygon V => (localToWorld q.a, localToWorld q.b, localToWorld q.c))
            poly).2.2)
          (ensureSurface s._surfaces materialName).2)
        (ensureSurface s._surfaces materialName).1⟩ := rfl

theorem surfaceOk_addPolygons {s : ModelExporterBase V}
    (h : ∀ k x, (k, x) ∈ s._surfaces → SurfaceOk k x) (materialName : String)
    (polys : List (ModelPolygon V)) (localToWorld : V → V) :
    ∀ k x, (k, x) ∈ (s.addPolygons materialName polys localToWorld)._surfaces →
      SurfaceOk k x := by
  obtain ⟨h2, h1⟩ := surfaceOk_ensureSurface h materialName
  rw [addPolygons_eq]
  exact surfaceOk_replace h1 (surfaceOk_foldl _ polys _ h2)

theorem surfaceOk_addSurface {s : ModelExporterBase V}
    (h : ∀ k x, (k, x) ∈ s._surfaces → SurfaceOk k x) (incoming : IModelSurface V)
    (localToWorld : V → V) (hin : (Call.addSurface incoming localToWorld).indicesInRange) :
    ∃ after log, s.addSurface incoming localToWorld = .ok (after, log) ∧
      ∀ k x, (k, x) ∈ after._surfaces → SurfaceOk k x := by
  cases incoming with
  | plain defaultMaterial numTriangles getPolygon =>
    obtain ⟨h2, h1⟩ := surfaceOk_ensureSurface h defaultMaterial
    exact ⟨_, _, rfl, surfaceOk_replace h1
      (surfaceOk_foldl (fun i => (localToWorld (getPolygon i).a, localToWorld (getPolygon i).b,
        localToWorld (getPolygon i).c)) _ _ h2)⟩
  | indexed defaultMaterial vertices indices =>
    obtain ⟨h2, h1⟩ := surfaceOk_ensureSurface h defaultMaterial
    rw [ensureSurface_snd] at h2
    by_cases hlt : indices.length < 3
    · exact ⟨⟨(ensureSurface s._surfaces defaultMaterial).1⟩,
        ["Rejecting model surface with less than 3 indices."],
        by simp [addSurface, IModelSurface.getDefaultMaterial, hlt], h1⟩
    · obtain ⟨tail, hrun, hlen, hmem, -⟩ :=
        addSurface_indexed s defaultMaterial vertices indices localToWorld (by omega)
      refine ⟨_, _, hrun, surfaceOk_replace h1 ⟨h2.1, ?_, ?_⟩⟩
      · obtain ⟨q, hq⟩ := h2.2.1
        exact ⟨q + indices.length / 3, by simp [hq, hlen]; omega⟩
      · intro i hi
        simp only [List.mem_append, List.length_append] at hi ⊢
        rcases hi with hi | hi
        · have := h2.2.2 i hi
          omega
        · obtain ⟨y, hy, rfl⟩ := hmem i hi
          have hyv : y < vertices.length := hin y hy
          have := offsetIndex_le y (surfaceOrEmpty s defaultMaterial).vertices.length
          omega

theorem surfaceOk_performAll (calls : List (Call V)) (s : ModelExporterBase V)
    (h : ∀ k x, (k, x) ∈ s._surfaces → SurfaceOk k x)
    (hin : ∀ c ∈ calls, c.indicesInRange) :
    ∃ after, performAll s calls = .ok after ∧
      ∀ k x, (k, x) ∈ after._surfaces → SurfaceOk k x := by
  induction calls generalizing s with
  | nil => exact ⟨s, rfl, h⟩
  | cons c calls ih =>
    have htail : ∀ c2 ∈ calls, c2.indicesInRange :=
      fun c2 hc2 => hin c2 (List.mem_cons_of_mem _ hc2)
    cases c with
    | addPolygons materialName polys localToWorld =>
      obtain ⟨after, hrun, hok⟩ := ih (s.addPolygons materialName polys localToWorld)
        (surfaceOk_addPolygons h materialName polys localToWorld) htail
      exact ⟨after, by simpa [performAll, perform] using hrun, hok⟩
    | addSurface incoming localToWorld =>
      obtain ⟨next, log, hadd, hnext⟩ := surfaceOk_addSurface h incoming localToWorld
        (hin _ (List.mem_cons_self _ _))
      obtain ⟨after, hrun, hok⟩ := ih next hnext htail
      exact ⟨after, by simpa [performAll, perform, hadd] using hrun, hok⟩

theorem appended_foldl {α : Type} (f : α → V × V × V) (items : List α) (surface : Surface V) :
    ∃ newVertices newIndices,
      items.foldl (fun surf item => pushTriangle surf (f item).1 (f item).2.1 (f item).2.2)
        surface = ⟨surface.materialName, surface.vertices ++ newVertices,
          surface.indices ++ newIndices⟩ ∧
      newVertices.length = 3 * items.length ∧ newIndices.length = 3 * items.length := by
  induction items generalizing surface with
  | nil => exact ⟨[], [], by simp, rfl, rfl⟩
  | cons item items ih =>
    obtain ⟨vs, is, heq, hv, hi⟩ :=
      ih (pushTriangle surface (f item).1 (f item).2.1 (f item).2.2)
    refine ⟨[(f item).1, (f item).2.1, (f item).2.2] ++ vs,
      [surface.vertices.length % UINT_RANGE,
        (surface.vertices.length % UINT_RANGE + 1) % UINT_RANGE,
        (surface.vertices.length % UINT_RANGE + 2) % UINT_RANGE] ++ is, ?_, ?_, ?_⟩
    · rw [List.foldl_cons, heq]
      simp [pushTriangle]
    · simp [hv]; omega
    · simp [hi]; omega

/-- C23: after any sequence of `addPolygons` and `addSurface` calls on the
empty exporter, in which every indexed surface has all its indices below its
own vertex count, every call has returned and every stored surface has its
key as `materialName`, an index count that is a multiple of 3, and only
indices below its vertex count. In every exporter state, `addPolygons` with
`p` polygons leaves the named surface with its former vertices and indices
followed by exactly `3p` new vertices and `3p` new indices, and the other
surfaces as they are. -/
theorem stored_surfaces_ok (calls : List (Call V)) (hin : ∀ c ∈ calls, c.indicesInRange) :
    (∃ after, performAll (⟨[]⟩ : ModelExporterBase V) calls = .ok after ∧
      ∀ key surface, (key, surface) ∈ after._surfaces →
        surface.materialName = key ∧ 3 ∣ surface.indices.length ∧
        ∀ i ∈ surface.indices, i < surface.vertices.length) ∧
    (∀ (s : ModelExporterBase V) (materialName : String) (polys : List (ModelPolygon V))
        (localToWorld : V → V),
      (∃ newVertices newIndices,
        StdMap.find materialName (s.addPolygons materialName polys localToWorld)._surfaces =
          some ⟨(surfaceOrEmpty s materialName).materialName,
            (surfaceOrEmpty s materialName).vertices ++ newVertices,
            (surfaceOrEmpty s materialName).indices ++ newIndices⟩ ∧
        newVertices.length = 3 * polys.length ∧ newIndices.length = 3 * polys.length) ∧
      ∀ k, k ≠ materialName →
        StdMap.find k (s.addPolygons materialName polys localToWorld)._surfaces =
          StdMap.find k s._surfaces) := by
  constructor
  · exact surfaceOk_performAll calls ⟨[]⟩ (fun k x hx => by cases hx) hin
  · intro s materialName polys localToWorld
    obtain ⟨vs, is, heq, hv, hi⟩ := appended_foldl
      (fun q : ModelPolygon V => (localToWorld q.a, localToWorld q.b, localToWorld q.c)) polys
      (ensureSurface s._surfaces materialName).2
    constructor
    · refine ⟨vs, is, ?_, hv, hi⟩
      rw [addPolygons_eq, heq, ensureSurface_snd]
      exact StdMap.find_replace_self _ _ _ (find_ensureSurface _ _)
    · intro k hk
      rw [addPolygons_eq]
      show StdMap.find k (StdMap.replace materialName _ _) = _
      rw [StdMap.find_replace_ne _ _ _ hk, find_ensureSurface_ne _ hk]

/-- C23, at one `addPolygons` call followed by an indexed surface for the
same material. -/
theorem stored_surfaces_ok_witness :
    ∃ after, performAll (⟨[]⟩ : ModelExporterBase Nat)
        [.addPolygons "m" [⟨1, 2, 3⟩] id, .addSurface (.indexed "m" [4, 5, 6] [0, 1, 2]) id] =
        .ok after ∧
      ∀ key surface, (key, surface) ∈ after._surfaces →
        surface.materialName = key ∧ 3 ∣ surface.indices.length ∧
        ∀ i ∈ surface.indices, i < surface.vertices.length :=
  (stored_surfaces_ok
    [.addPolygons "m" [⟨1, 2, 3⟩] id, .addSurface (.indexed "m" [4, 5, 6] [0, 1, 2]) id]
    (by
      intro c hc
      simp only [List.mem_cons, List.mem_nil_iff, or_false] at hc
      rcases hc with rfl | rfl
      · trivial
      · intro i hi
        simp only [List.mem_cons, List.mem_nil_iff, or_false] at hi
        rcases hi with rfl | rfl | rfl <;> decide)).1

end ModelExporterBase

end model

/-! ## The target manager -/

namespace entity

open render

namespace TargetManager

/-- C24: `getTarget` always returns a pointer. For the empty name it is the
manager's empty target, the same for every call and cleared by the
constructor, and the manager is left as it is. For a non-empty name it is
the target stored under that name; when there is none, a new target is
allocated, cleared and stored under the name, all other objects and entries
staying as they are. A second call with the same name returns the same
pointer and changes nothing. -/
theorem getTarget_spec (s : TargetManager) (name : String) :
    (name = "" → s.getTarget name = (s._emptyTarget, s)) ∧
    (s.getTarget name).2._emptyTarget = s._emptyTarget ∧
    TargetManager.new.deref TargetManager.new._emptyTarget = some ⟨[.clear]⟩ ∧
    (name ≠ "" → ∀ found, StdMap.find name s._targets = some found →
      s.getTarget name = (found, s)) ∧
    (name ≠ "" → StdMap.find name s._targets = none →
      (s.getTarget name).1 = s.heap.length ∧
      (s.getTarget name).2.heap = s.heap ++ [⟨[.clear]⟩] ∧
      (s.getTarget name).2.deref (s.getTarget name).1 = some ⟨[.clear]⟩ ∧
      List.Perm (s.getTarget name).2._targets ((name, (s.getTarget name).1) :: s._targets)) ∧
    (name ≠ "" → StdMap.find name (s.getTarget name).2._targets = some (s.getTarget name).1) ∧
    (s.getTarget name).2.getTarget name = ((s.getTarget name).1, (s.getTarget name).2) := by
  have hempty : name = "" → s.getTarget name = (s._emptyTarget, s) := by
    intro h
    simp [getTarget, h]
  have hmiss : name ≠ "" → StdMap.find name s._targets = none →
      s.getTarget name = (s.heap.length, ⟨s.heap ++ [⟨[.clear]⟩], s._emptyTarget,
        StdMap.place name s.heap.length s._targets⟩) := by
    intro hne hf
    simp [getTarget, hne, hf, StdMap.insert]
  have hhit : name ≠ "" → ∀ found, StdMap.find name s._targets = some found →
      s.getTarget name = (found, s) := by
    intro hne found hf
    simp [getTarget, hne, hf]
  have hfind : name ≠ "" →
      StdMap.find name (s.getTarget name).2._targets = some (s.getTarget name).1 := by
    intro hne
    cases hf : StdMap.find name s._targets with
    | some found => rw [hhit hne found hf]; exact hf
    | none =>
      rw [hmiss hne hf]
      exact StdMap.find_place_self _ _ _ hf
  refine ⟨hempty, ?_, rfl, hhit, ?_, hfind, ?_⟩
  · by_cases hne : name = ""
    · rw [hempty hne]
    · cases hf : StdMap.find name s._targets with
      | some found => rw [hhit hne found hf]
      | none => rw [hmiss hne hf]
  · intro hne hf
    rw [hmiss hne hf]
    exact ⟨rfl, rfl, by simp [deref], StdMap.place_perm _ _ _⟩
  · by_cases hne : name = ""
    · rw [hempty hne]
      simp [getTarget, hne]
    · have h2 := hfind hne
      generalize s.getTarget name = r at h2
      simp [getTarget, hne, h2]

end TargetManager

end entity
